import Mathlib

/-!
# Verification of the push-todo task-execution daemon

Shallow embedding, in Lean 4, of the core logic of the push-todo plugin
(`plugins/push-todo/scripts/`): the task-execution daemon (`daemon.py`),
the self-heal supervisor (`daemon_health.py`) and the project registry
(`project_registry.py`).

Modelling conventions:
* Pure functions of the source become Lean functions.
* The daemon's global mutable dictionaries become fields of a
  `DaemonState` record threaded explicitly; Python dicts are association
  lists that preserve insertion order (insert appends, update edits in
  place), exactly like CPython dicts.
* External effects (HTTP calls, process control, notifications, status
  file writes) are reified as an emitted `List Action`; the observable
  behaviour of the environment (poll results, stdout lines, claim
  responses, clock) is packaged in environment records.
* Wall-clock instants are rationals (seconds); Python's `int()` applied
  to a non-negative float difference of datetimes is `Rat.floor`.
  Subtraction of instants is spelled `qsub` (a kernel-computable
  formulation of `ℚ` subtraction, proved equal to `·-·` below).
* Strings that undergo character-level processing (substring search,
  prefix stripping, lowercasing, message building) are `List Char`;
  strings used only as opaque keys or labels are `String`.
* Python truthiness of absent dict keys is modelled with `Option`
  (an empty-string field is not distinguished from an absent one).
* Logging and the exact prompt text passed to the child are elided:
  no claim depends on them.
-/

namespace PushTodo

/-! ## Rational-time helper -/

/-- Subtraction on `ℚ` in a kernel-computable form (`Rat.divInt` of
cross-multiplied numerators); `qsub_eq_sub` below shows it is `a - b`.
Used to embed `(now - started_at).total_seconds()`. -/
def qsub (a b : ℚ) : ℚ := Rat.divInt (a.num * b.den - b.num * a.den) (a.den * b.den)

/-! ## Association-list embedding of Python dicts -/

/-- Python dict lookup `d.get(k)`. -/
def alookup {α : Type} (k : Nat) : List (Nat × α) → Option α
  | [] => none
  | (k', v) :: t => if k' = k then some v else alookup k t

/-- Python `d[k] = f(d.get(k, dflt))`: update the first binding of `k`
in place, or append a fresh binding derived from `dflt`. -/
def aupd {α : Type} (k : Nat) (dflt : α) (f : α → α) : List (Nat × α) → List (Nat × α)
  | [] => [(k, f dflt)]
  | (k', v) :: t => if k' = k then (k', f v) :: t else (k', v) :: aupd k dflt f t

/-- Python `d.pop(k, None)` / `del d[k]`: drop the first binding of `k`. -/
def aerase {α : Type} (k : Nat) : List (Nat × α) → List (Nat × α)
  | [] => []
  | (k', v) :: t => if k' = k then t else (k', v) :: aerase k t

/-! ## Small string helpers (List Char embeddings of the Python str ops) -/

/-- Python `pat in s` (substring containment). -/
def containsSub (pat : List Char) : List Char → Bool
  | [] => pat.isEmpty
  | c :: cs => pat.isPrefixOf (c :: cs) || containsSub pat cs

/-- Python `s.lower()`, character-wise. -/
def lowerStr (s : List Char) : List Char := s.map Char.toLower

/-- Python `s.replace(":", "/", 1)`: replace the first colon with a slash. -/
def replaceFirstColon : List Char → List Char
  | [] => []
  | c :: cs => if c = ':' then '/' :: cs else c :: replaceFirstColon cs

/-- Python `s[:-4]`, used to drop a `.git` suffix. -/
def dropLast4 (s : List Char) : List Char := s.take (s.length - 4)

/-- Decimal digits of a natural number (Python `str(n)` for `n ≥ 0`). -/
def natStr (n : Nat) : List Char := Nat.toDigits 10 n

/-- Python `str(i)` for an integer. -/
def intStr (i : Int) : List Char :=
  if i < 0 then '-' :: natStr i.natAbs else natStr i.toNat

/-! ## Remote-URL normalization — `daemon.py` `get_git_remote` (lines 313-343)

The raw URL comes from `git remote get-url origin`; we embed the
normalization that `get_git_remote` applies to it. -/

/-- The protocol prefixes stripped by `get_git_remote`, in source order. -/
def protocolHeads : List (List Char) :=
  ["https://".toList, "http://".toList, "git@".toList, "ssh://git@".toList]

/-- The `for prefix in [...]: if url.startswith(prefix): url = url[len(prefix):]; break`
loop of `get_git_remote`: strip the first matching protocol head. -/
def stripProtocol : List (List Char) → List Char → List Char
  | [], url => url
  | p :: ps, url =>
      if p.isPrefixOf url then url.drop p.length else stripProtocol ps url

/-- The embedding of `get_git_remote`'s normalization of the raw remote URL:
strip the first matching protocol head; if the result contains a `:`
and no `://`, replace the first `:` with `/`; strip a trailing `.git`. -/
def normalizeRemote (url : List Char) : List Char :=
  let u1 := stripProtocol protocolHeads url
  let u2 :=
    if containsSub [':'] u1 && !containsSub [':', '/', '/'] u1 then
      replaceFirstColon u1
    else u1
  if (".git".toList).isSuffixOf u2 then dropLast4 u2 else u2

/-! ## Configuration constants — `daemon.py` lines 97-152 -/

def MAX_CONCURRENT_TASKS : Nat := 5

/-- Constant `CERTAINTY_HIGH_THRESHOLD = 0.7` (as the rational 7/10). -/
def CERTAINTY_HIGH_THRESHOLD : ℚ := Rat.divInt 7 10

/-- Constant `CERTAINTY_LOW_THRESHOLD = 0.4` (as the rational 4/10). -/
def CERTAINTY_LOW_THRESHOLD : ℚ := Rat.divInt 4 10

/-- Constant `TASK_TIMEOUT_SECONDS = 3600` (used both as a duration bound and,
via an f-string, as text in the timeout error message). -/
def TASK_TIMEOUT_SECONDS : Nat := 3600

def NOTIFY_ON_COMPLETE : Bool := true
def NOTIFY_ON_FAILURE : Bool := true
def NOTIFY_ON_NEEDS_INPUT : Bool := true

/-- Constant `STUCK_IDLE_THRESHOLD = 600` seconds. -/
def STUCK_IDLE_THRESHOLD : Nat := 600

/-- The `STUCK_PATTERNS` list (`daemon.py` lines 141-152). -/
def STUCK_PATTERNS : List (List Char) :=
  [ "waiting for permission".toList
  , "approve this action".toList
  , "permission required".toList
  , "plan ready for approval".toList
  , "waiting for user".toList
  , "enter plan mode".toList
  , "press enter to continue".toList
  , "y/n".toList
  , "[Y/n]".toList
  , "confirm:".toList ]

/-! ## Certainty analysis and execution mode — `daemon.py` lines 694-750 -/

/-- The field of a `CertaintyAnalysis` that the daemon's control flow
reads; the analyzer itself is an external collaborator and only the
score decides routing. -/
structure CertaintyAnalysis where
  score : ℚ
  deriving DecidableEq, Repr

inductive ExecutionMode where
  | immediate
  | planning
  | clarify
  deriving DecidableEq, Repr

/-- The function `get_execution_mode(analysis)` (`daemon.py` lines 732-750): a `None`
analysis defaults to immediate execution, otherwise the score is
compared against the two thresholds. -/
def get_execution_mode : Option CertaintyAnalysis → ExecutionMode
  | none => .immediate
  | some a =>
      if a.score ≥ CERTAINTY_HIGH_THRESHOLD then .immediate
      else if a.score ≥ CERTAINTY_LOW_THRESHOLD then .planning
      else .clarify

/-! ## Atomic claim — `daemon.py` `claim_task` (lines 755-802)

The `update-task-execution` response documented by the HTTP contract is
`{success, claimed?, claimedBy?}` with boolean `success` and `claimed`;
a failed request (`api_request` returned `None`) is `none`. -/

structure ClaimResponse where
  success : Bool
  claimed : Option Bool
  claimedBy : Option String
  deriving DecidableEq, Repr

/-- The decision `claim_task` takes from the `update-task-execution`
response in global mode (`daemon.py` lines 783-802): request failure is
a failed claim; `claimed: true` / `claimed: false` are decisive; with no
`claimed` key a truthy `success` counts as a claim (backward compat). -/
def claim_task_result (resp : Option ClaimResponse) : Bool :=
  match resp with
  | none => false
  | some r =>
      if r.claimed = some true then true
      else if r.claimed = some false then false
      else r.success

/-! ## Daemon in-memory state — `daemon.py` lines 176-192 and 1316 -/

/-- Task phases reported through the status file. -/
inductive TaskPhase where
  | analyzing
  | executing
  | planning
  | idle
  | stuck
  deriving DecidableEq, Repr

/-- The per-task dict stored in `task_details` (all keys optional:
`update_task_detail` merges keyword arguments into a plain dict). -/
structure TaskInfo where
  task_id : Option String
  summary : Option String
  status : Option String
  phase : Option TaskPhase
  detail : Option (List Char)
  started_at : Option ℚ
  git_remote : Option String
  claude_pid : Option Nat
  deriving DecidableEq, Repr

def emptyTaskInfo : TaskInfo :=
  { task_id := none, summary := none, status := none, phase := none
  , detail := none, started_at := none, git_remote := none, claude_pid := none }

inductive CompletedStatus where
  | completed
  | failed
  | timeout
  deriving DecidableEq, Repr

/-- An entry of the `completed_today` list (`daemon.py` lines 1392-1399,
1418-1424, 1465-1471).  Entries appended on failure or timeout carry no
`pr_url` key, modelled as `none`. -/
structure CompletedEntry where
  display_number : Nat
  summary : String
  completed_at : ℚ
  duration_seconds : Int
  status : CompletedStatus
  pr_url : Option String
  deriving DecidableEq, Repr

/-- The daemon's global mutable dictionaries (`running_tasks`,
`task_details`, `completed_today`, `task_last_output`,
`task_stdout_buffer`, `task_project_paths`) as one record.  The
`subprocess.Popen` handles stored in `running_tasks` are opaque; their
observable behaviour lives in `ProcEnv`, so `running_tasks` keeps only
the keys. -/
structure DaemonState where
  running_tasks : List Nat
  task_details : List (Nat × TaskInfo)
  completed_today : List CompletedEntry
  task_last_output : List (Nat × ℚ)
  task_stdout_buffer : List (Nat × List (List Char))
  task_project_paths : List (Nat × Option String)
  deriving DecidableEq, Repr

/-- Statuses sent to `update-task-execution` by `update_task_status`. -/
inductive ReportStatus where
  | running
  | needs_clarification
  | completed
  | failed
  deriving DecidableEq, Repr

/-- Notification types passed to `send_notification`. -/
inductive NotifType where
  | needsInput
  | taskComplete
  | taskFailed
  | taskTimeout
  deriving DecidableEq, Repr

/-- Reified external effects of the daemon loop.  `statusReport` is a
call to `update_task_status` (PATCH `update-task-execution`) with the
given status and optional `error` text; `apiClaim` is the atomic-claim
PATCH issued by `claim_task`; `writeStatus` is `write_status_file`. -/
inductive Action where
  | apiClaim (n : Nat)
  | statusReport (n : Nat) (status : ReportStatus) (error : Option (List Char))
  | notify (n : Nat) (ntype : NotifType)
  | gitCreateWorktree (n : Nat)
  | spawnChild (n : Nat) (planningMode : Bool)
  | terminateChild (n : Nat)
  | waitChild (n : Nat) (timeoutSec : Nat)
  | killChild (n : Nat)
  | cleanupWorktree (n : Nat)
  | createPRCmd (n : Nat)
  | writeStatus
  deriving DecidableEq, Repr

/-- The helper `update_task_detail` (`daemon.py` lines 284-289): merge updates into
`task_details[n]` (creating an empty dict first if absent) and rewrite
the status file. -/
def updDetail (n : Nat) (f : TaskInfo → TaskInfo) (st : DaemonState) : DaemonState :=
  { st with task_details := aupd n emptyTaskInfo f st.task_details }

/-! ## Stuck detection — `daemon.py` lines 522-602 -/

/-- The function `check_task_stuck_patterns` (`daemon.py` lines 522-539): first stuck
pattern contained case-insensitively in the line, as
`"Detected: '<pattern>'"`. -/
def check_task_stuck_patterns (line : List Char) : Option (List Char) :=
  match STUCK_PATTERNS.find? (fun p => containsSub (lowerStr p) (lowerStr line)) with
  | some p => some (("Detected: '".toList) ++ p ++ ("'".toList))
  | none => none

/-- One iteration of the `while` loop of `monitor_task_stdout`
(`daemon.py` lines 565-602): stamp `task_last_output`, push the line
into the 20-line ring buffer, and on a stuck match set
`phase = "stuck"` (which rewrites the status file) and send one
needs-input notification. -/
def processLine (n : Nat) (now : ℚ) (st : DaemonState) (line : List Char) :
    DaemonState × List Action :=
  let st := { st with task_last_output := aupd n now (fun _ => now) st.task_last_output }
  let buf := ((alookup n st.task_stdout_buffer).getD []) ++ [line]
  let buf := if buf.length > 20 then buf.drop 1 else buf
  let st := { st with task_stdout_buffer := aupd n [] (fun _ => buf) st.task_stdout_buffer }
  match check_task_stuck_patterns line with
  | none => (st, [])
  | some reason =>
      let st := updDetail n
        (fun i => { i with phase := some .stuck
                         , detail := some (("Waiting for input: ".toList) ++ reason) }) st
      (st, [Action.writeStatus] ++
        (if NOTIFY_ON_NEEDS_INPUT then [Action.notify n .needsInput] else []))

/-- The read loop of `monitor_task_stdout` over the lines available this
cycle. -/
def processLines (n : Nat) (now : ℚ) (st : DaemonState) :
    List (List Char) → DaemonState × List Action
  | [] => (st, [])
  | line :: rest =>
      let r := processLine n now st line
      let r2 := processLines n now r.1 rest
      (r2.1, r.2 ++ r2.2)

/-- The function `monitor_task_stdout` (`daemon.py` lines 542-602): initialize the
tracking entries if missing, then drain at most 100 stdout lines
(`max_lines_per_check`), processing each. -/
def monitor_task_stdout (n : Nat) (now : ℚ) (lines : List (List Char))
    (st : DaemonState) : DaemonState × List Action :=
  let st := if (alookup n st.task_last_output).isNone then
      { st with task_last_output := aupd n now (fun _ => now) st.task_last_output }
    else st
  let st := if (alookup n st.task_stdout_buffer).isNone then
      { st with task_stdout_buffer := aupd n [] (fun _ => []) st.task_stdout_buffer }
    else st
  processLines n now st (lines.take 100)

/-- The function `check_task_idle` (`daemon.py` lines 605-627): idle iff the last
output is older than `STUCK_IDLE_THRESHOLD` (the 300-second tier only
logs a warning). -/
def check_task_idle (n : Nat) (now : ℚ) (st : DaemonState) : Bool :=
  match alookup n st.task_last_output with
  | none => false
  | some t => qsub now t > (STUCK_IDLE_THRESHOLD : ℚ)

/-! ## Task dispatch — `daemon.py` `execute_task` (lines 935-1154) -/

/-- The fields of a fetched todo dict read by `execute_task`.  The
camelCase/snake_case fallbacks of the source (`displayNumber` or
`display_number`, …) are collapsed into a single optional field. -/
structure Task where
  displayNumber : Option Nat
  gitRemote : Option String
  normalizedContent : Option String
  summary : Option String
  id : Option String
  deriving DecidableEq, Repr

/-- Python `content = normalizedContent or summary or "Work on this task"`. -/
def taskContent (t : Task) : String :=
  (t.normalizedContent.getD (t.summary.getD "Work on this task"))

/-- The environment observed during one `execute_task` call: mode flags,
registry contents, the claim response, the certainty analysis (or
`none` when the analyzer is unavailable or failed), and the outcomes of
worktree creation and `subprocess.Popen`. -/
structure ExecEnv where
  globalMode : Bool
  registry : String → Option String
  claimResponse : Option ClaimResponse
  analysis : Option CertaintyAnalysis
  worktreeOk : Bool
  spawnOk : Bool
  spawnError : List Char
  childPid : Nat
  now : ℚ

/-- The body of `execute_task` after a successful (or skipped) claim
(`daemon.py` lines 990-1154): `update_task_detail`, certainty analysis
and mode selection, the clarification early-return, the legacy-mode
`running` update, worktree creation, child spawn.  Factored out of
`execute_task` purely for proof modularity; `execute_task` below wires
it exactly where the source continues after line 988. -/
def execute_dispatch (env : ExecEnv) (task : Task) (n : Nat)
    (projectPath : Option String) (st : DaemonState) :
    DaemonState × List Action :=
  let summary := task.summary.getD ((taskContent task).take 50)
  let st := updDetail n
    (fun i => { i with task_id := some (task.id.getD "")
                     , summary := some summary
                     , status := some "running"
                     , phase := some .analyzing
                     , detail := some ("Analyzing task certainty...".toList)
                     , started_at := some env.now
                     , git_remote := task.gitRemote }) st
  let mode := get_execution_mode env.analysis
  if mode = .clarify then
    (st, [Action.writeStatus,
         Action.statusReport n .needs_clarification none] ++
         (if NOTIFY_ON_NEEDS_INPUT then [Action.notify n .needsInput] else []))
  else
    let legacyActs : List Action :=
      if env.globalMode then [] else [Action.statusReport n .running none]
    if !env.worktreeOk then
      (st, [Action.writeStatus] ++ legacyActs ++
           [Action.gitCreateWorktree n,
            Action.statusReport n .failed (some ("Failed to create git worktree".toList))])
    else if env.spawnOk then
      let st :=
        { st with running_tasks := st.running_tasks ++ [n]
                , task_project_paths :=
                    aupd n none (fun _ => projectPath) st.task_project_paths
                , task_last_output :=
                    aupd n env.now (fun _ => env.now) st.task_last_output
                , task_stdout_buffer :=
                    aupd n [] (fun _ => []) st.task_stdout_buffer }
      let st := updDetail n
        (fun i => { i with phase := some .executing
                         , detail := some ("Running Claude...".toList)
                         , claude_pid := some env.childPid }) st
      (st, [Action.writeStatus] ++ legacyActs ++
           [Action.gitCreateWorktree n,
            Action.spawnChild n (mode = .planning),
            Action.writeStatus])
    else
      (st, [Action.writeStatus] ++ legacyActs ++
           [Action.gitCreateWorktree n,
            Action.statusReport n .failed (some env.spawnError)])

/-- The dispatcher `execute_task(task)` (`daemon.py` lines 935-1154).  Returns the new
state and the emitted actions.  Control flow in source order: guards
(no/zero display number, already running, concurrency cap), global-mode
routing through the registry, the atomic claim, then
`execute_dispatch`. -/
def execute_task (env : ExecEnv) (task : Task) (st : DaemonState) :
    DaemonState × List Action :=
  match task.displayNumber with
  | none => (st, [])
  | some n =>
    if n = 0 then (st, [])
    else if n ∈ st.running_tasks then (st, [])
    else if st.running_tasks.length ≥ MAX_CONCURRENT_TASKS then (st, [])
    else
      let route : Option (Option String) :=
        if env.globalMode then
          match task.gitRemote with
          | none => none
          | some r =>
            match env.registry r with
            | none => none
            | some p => some (some p)
        else some none
      match route with
      | none => (st, [])
      | some projectPath =>
        if env.globalMode && !(claim_task_result env.claimResponse) then
          (st, [Action.apiClaim n])
        else
          let claimActs : List Action := if env.globalMode then [Action.apiClaim n] else []
          let r := execute_dispatch env task n projectPath st
          (r.1, claimActs ++ r.2)

/-! ## Reap pass — `daemon.py` `check_running_tasks` (lines 1319-1491) -/

/-- The observable behaviour of the environment during one reap pass,
keyed by display number: `proc.poll()` results, the stdout lines
available, the stderr tail read on failure, whether `proc.wait(5)`
returns within the grace period after `terminate()`, the PR URL
returned by `create_pr_for_task`, and the clock. -/
structure ProcEnv where
  poll : Nat → Option Int
  stdoutLines : Nat → List (List Char)
  stderrTail : Nat → List Char
  waitGraceful : Nat → Bool
  prUrl : Nat → Option String
  now : ℚ

/-- The timeout test at the top of the reap loop (`daemon.py` lines
1335-1340): `started_at` present and `now - started_at >
TASK_TIMEOUT_SECONDS`. -/
def timeoutCond (env : ProcEnv) (st : DaemonState) (n : Nat) : Bool :=
  match ((alookup n st.task_details).getD emptyTaskInfo).started_at with
  | some t => qsub env.now t > (TASK_TIMEOUT_SECONDS : ℚ)
  | none => false

/-- The `duration = int((now - started_at).total_seconds()) if started_at else 0`
computation shared by the exit and timeout branches of
`check_running_tasks`, reading `started_at` from `task_details[n]`. -/
def reapDuration (env : ProcEnv) (st : DaemonState) (n : Nat) : Int :=
  match ((alookup n st.task_details).getD emptyTaskInfo).started_at with
  | some t => (qsub env.now t).floor
  | none => 0

/-- The timeout error text
`f"Task timed out after {duration}s (limit: {TASK_TIMEOUT_SECONDS}s)"`
(`daemon.py` line 1446). -/
def timeoutMsg (duration : Int) : List Char :=
  ("Task timed out after ".toList) ++ intStr duration ++
    ("s (limit: ".toList) ++ natStr TASK_TIMEOUT_SECONDS ++ ("s)".toList)

/-- The stdout-monitoring and idle-check portion of one scan-loop
iteration (`daemon.py` lines 1342-1353): run `monitor_task_stdout`,
then mark the task idle (rewriting the status file) when
`check_task_idle` fires.  Returns the state and the actions emitted so
far. -/
def reapMonitored (env : ProcEnv) (st : DaemonState) (n : Nat) :
    DaemonState × List Action :=
  let rM := monitor_task_stdout n env.now (env.stdoutLines n) st
  if check_task_idle n env.now rM.1 then
    (updDetail n (fun i => { i with phase := some .idle
                                  , detail := some ("No output detected - may be stuck".toList) }) rM.1,
     rM.2 ++ [Action.writeStatus])
  else (rM.1, rM.2)

/-- One iteration of the first reap loop (`daemon.py` lines 1330-1424)
for task `n`: timeout check (with `continue`), stdout monitoring and
idle check (`reapMonitored`), `poll`, and the completion / failure
handling.  Returns the new state, the emitted actions, whether `n` was
appended to `completed`, and whether it was appended to `timed_out`. -/
def reapOne (env : ProcEnv) (st : DaemonState) (n : Nat) :
    DaemonState × List Action × Option Nat × Option Nat :=
  if timeoutCond env st n then (st, [], none, some n)
  else
    let rI := reapMonitored env st n
    match env.poll n with
    | none => (rI.1, rI.2, none, none)
    | some rc =>
      let duration : Int := reapDuration env st n
      let summary := (((alookup n rI.1.task_details).getD emptyTaskInfo).summary).getD "Unknown task"
      if rc = 0 then
        let entry : CompletedEntry :=
          { display_number := n, summary := summary, completed_at := env.now
          , duration_seconds := duration, status := .completed, pr_url := env.prUrl n }
        ({ rI.1 with completed_today := rI.1.completed_today ++ [entry] },
         rI.2 ++ [Action.createPRCmd n] ++
           (if NOTIFY_ON_COMPLETE then [Action.notify n .taskComplete] else []),
         some n, none)
      else
        let errorMsg := ("Exit code ".toList) ++ intStr rc ++ (": ".toList) ++
          (env.stderrTail n).take 200
        let entry : CompletedEntry :=
          { display_number := n, summary := summary, completed_at := env.now
          , duration_seconds := duration, status := .failed, pr_url := none }
        ({ rI.1 with completed_today := rI.1.completed_today ++ [entry] },
         rI.2 ++ [Action.statusReport n .failed (some errorMsg)] ++
           (if NOTIFY_ON_FAILURE then [Action.notify n .taskFailed] else []),
         some n, none)

/-- The first reap loop over the running table, collecting `completed`
and `timed_out` in iteration order. -/
def reapScan (env : ProcEnv) (st : DaemonState) :
    List Nat → DaemonState × List Action × List Nat × List Nat
  | [] => (st, [], [], [])
  | n :: rest =>
      let r := reapOne env st n
      let r2 := reapScan env r.1 rest
      (r2.1, r.2.1 ++ r2.2.1, r.2.2.1.toList ++ r2.2.2.1, r.2.2.2.toList ++ r2.2.2.2)

/-- Handling of one timed-out task (`daemon.py` lines 1427-1474):
graceful `terminate()` with a 5-second `wait`, forced `kill()` when the
wait times out, a `failed` status report whose error is
`"Task timed out after {duration}s (limit: {TASK_TIMEOUT_SECONDS}s)"`,
a timeout notification, and a `completed_today` entry with status
`timeout`. -/
def reapTimeout (env : ProcEnv) (st : DaemonState) (n : Nat) :
    DaemonState × List Action :=
  let info := (alookup n st.task_details).getD emptyTaskInfo
  let duration : Int := reapDuration env st n
  let timeoutError := timeoutMsg duration
  let entry : CompletedEntry :=
    { display_number := n, summary := info.summary.getD "Unknown task"
    , completed_at := env.now, duration_seconds := duration
    , status := .timeout, pr_url := none }
  ({ st with completed_today := st.completed_today ++ [entry] },
   [Action.terminateChild n, Action.waitChild n 5] ++
     (if env.waitGraceful n then [] else [Action.killChild n]) ++
     [Action.statusReport n .failed (some timeoutError)] ++
     (if NOTIFY_ON_FAILURE then [Action.notify n .taskTimeout] else []))

/-- The second reap loop over `timed_out`. -/
def reapTimeouts (env : ProcEnv) (st : DaemonState) :
    List Nat → DaemonState × List Action
  | [] => (st, [])
  | n :: rest =>
      let r := reapTimeout env st n
      let r2 := reapTimeouts env r.1 rest
      (r2.1, r.2 ++ r2.2)

/-- Removal of one reaped task (`daemon.py` lines 1477-1487): delete it
from every tracking dict and clean up its worktree. -/
def reapRemove (st : DaemonState) (n : Nat) : DaemonState × List Action :=
  ({ st with running_tasks := st.running_tasks.erase n
           , task_details := aerase n st.task_details
           , task_last_output := aerase n st.task_last_output
           , task_stdout_buffer := aerase n st.task_stdout_buffer
           , task_project_paths := aerase n st.task_project_paths },
   [Action.cleanupWorktree n])

/-- The removal loop over `completed`. -/
def reapRemovals (st : DaemonState) : List Nat → DaemonState × List Action
  | [] => (st, [])
  | n :: rest =>
      let r := reapRemove st n
      let r2 := reapRemovals r.1 rest
      (r2.1, r.2 ++ r2.2)

/-- The reap pass `check_running_tasks()` (`daemon.py` lines 1319-1491): the scan
loop, the timeout loop, the removal loop, and a final status-file write
when anything completed. -/
def check_running_tasks (env : ProcEnv) (st : DaemonState) :
    DaemonState × List Action :=
  let r := reapScan env st st.running_tasks
  let rT := reapTimeouts env r.1 r.2.2.2
  let completed := r.2.2.1 ++ r.2.2.2
  let rR := reapRemovals rT.1 completed
  (rR.1, r.2.1 ++ rT.2 ++ rR.2 ++
    (if completed.isEmpty then [] else [Action.writeStatus]))

/-! ## Status file — `daemon.py` `write_status_file` (lines 209-281) -/

/-- The `completed_today` field of the status-file snapshot
(`daemon.py` line 264): `completed_today[-10:]`, the last (at most) 10
in-memory entries. -/
def statusFileCompleted (st : DaemonState) : List CompletedEntry :=
  st.completed_today.drop (st.completed_today.length - 10)

/-! ## Project registry — `project_registry.py` -/

def REGISTRY_VERSION : Nat := 1

/-- One value of the `projects` dict:
`{local_path, registered_at, last_used}` (timestamps as opaque
strings). -/
structure ProjectEntry where
  local_path : String
  registered_at : String
  last_used : String
  deriving DecidableEq, Repr

/-- The registry document `{version, projects, default_project}`.
`projects` is an insertion-ordered dict keyed by normalized remote. -/
structure RegistryData where
  version : Nat
  projects : List (String × ProjectEntry)
  default_project : Option String
  deriving DecidableEq, Repr

/-- The observable condition of `~/.config/push/projects.json`:
absent, present but unreadable (invalid JSON / `IOError`), or valid. -/
inductive RegistryFile where
  | missing
  | corrupt
  | valid (d : RegistryData)
  deriving Repr

/-- The fresh document both fallback branches of
`ProjectRegistry._load` build. -/
def emptyRegistry : RegistryData :=
  { version := REGISTRY_VERSION, projects := [], default_project := none }

/-- String-keyed dict lookup. -/
def slookup {α : Type} (k : String) : List (String × α) → Option α
  | [] => none
  | (k', v) :: t => if k' = k then some v else slookup k t

/-- String-keyed in-place update of an existing binding. -/
def smodify {α : Type} (k : String) (f : α → α) : List (String × α) → List (String × α)
  | [] => []
  | (k', v) :: t => if k' = k then (k', f v) :: t else (k', v) :: smodify k f t

/-- Loader `ProjectRegistry._load` (`project_registry.py` lines 37-58): a
missing file and an unreadable file both yield a fresh empty document;
a valid document with an older version is migrated (version bumped). -/
def registry_load : RegistryFile → RegistryData
  | .missing => emptyRegistry
  | .corrupt => emptyRegistry
  | .valid d => if d.version < REGISTRY_VERSION then { d with version := REGISTRY_VERSION } else d

/-- Operation `ProjectRegistry.register` (lines 71-101): create or update the
entry, set `last_used` (and `registered_at` on creation) to `now`, make
this project the default if none exists, save, and report whether the
registration was new.  The returned document is what `_save` writes. -/
def registry_register (d : RegistryData) (git_remote local_path now : String) :
    RegistryData × Bool :=
  let isNew := (slookup git_remote d.projects).isNone
  let projects :=
    if isNew then
      d.projects ++ [(git_remote, { local_path := local_path
                                  , registered_at := now, last_used := now })]
    else
      smodify git_remote (fun e => { e with local_path := local_path, last_used := now }) d.projects
  let dp := match d.default_project with
    | none => some git_remote
    | some x => some x
  ({ d with projects := projects, default_project := dp }, isNew)

/-- Operation `ProjectRegistry.get_path` (lines 103-119): look up, update
`last_used`, save. -/
def registry_get_path (d : RegistryData) (git_remote now : String) :
    Option String × RegistryData :=
  match slookup git_remote d.projects with
  | some e =>
      (some e.local_path,
       { d with projects := smodify git_remote (fun e => { e with last_used := now }) d.projects })
  | none => (none, d)

/-- Operation `ProjectRegistry.get_path_without_update` (lines 121-136). -/
def registry_get_path_without_update (d : RegistryData) (git_remote : String) :
    Option String :=
  (slookup git_remote d.projects).map (fun e => e.local_path)

/-- Operation `ProjectRegistry.is_registered` (lines 195-197). -/
def registry_is_registered (d : RegistryData) (git_remote : String) : Bool :=
  (slookup git_remote d.projects).isSome

/-- Operation `ProjectRegistry.project_count` (lines 191-193). -/
def registry_project_count (d : RegistryData) : Nat := d.projects.length

/-! ## Self-heal supervisor — `daemon_health.py` -/

/-- External effects of the health module. -/
inductive HealthAction where
  | sigterm (pid : Nat)
  | startDaemon
  deriving DecidableEq, Repr

/-- The filesystem / process facts the health module observes: the pid
file's parsed contents, which pids are alive (`os.kill(pid, 0)`), the
recorded version file, whether `daemon.py` exists, and the
`EXPECTED_DAEMON_VERSION` constant parsed at import time (it is `none`
whenever no `DAEMON_VERSION` line is found in `daemon.py`). -/
structure HealthState where
  pidFile : Option Nat
  alive : Nat → Bool
  versionFile : Option String
  scriptExists : Bool
  expectedVersion : Option String

/-- Outcomes the environment decides during `ensure_daemon_running`:
the pid a fresh daemon would get and whether `subprocess.Popen`
succeeds. -/
structure HealthEnv where
  newPid : Nat
  startOk : Bool

/-- Probe `is_daemon_running` (`daemon_health.py` lines 57-69): pid file
present and its process answers signal 0. -/
def is_daemon_running (st : HealthState) : Bool :=
  match st.pidFile with
  | none => false
  | some p => st.alive p

/-- Check `is_daemon_outdated` (lines 82-102): `false` with no expected
version or no running daemon; `true` when the version file is missing;
otherwise a string comparison. -/
def is_daemon_outdated (st : HealthState) : Bool :=
  match st.expectedVersion with
  | none => false
  | some ev =>
      if !is_daemon_running st then false
      else
        match st.versionFile with
        | none => true
        | some rv => rv ≠ ev

/-- Operation `stop_daemon` (lines 148-163): SIGTERM the recorded pid when it is
alive; remove the pid file in every branch. -/
def stop_daemon (st : HealthState) : HealthState × List HealthAction × Bool :=
  match st.pidFile with
  | none => (st, [], false)
  | some p =>
      if st.alive p then ({ st with pidFile := none }, [.sigterm p], true)
      else ({ st with pidFile := none }, [], false)

/-- Operation `start_daemon` (lines 105-145): spawn the daemon detached and write
the pid file; a `Popen` failure raises before the pid file is written
(surfaced as `none`). -/
def start_daemon (env : HealthEnv) (st : HealthState) :
    HealthState × List HealthAction × Option Nat :=
  if env.startOk then
    ({ st with pidFile := some env.newPid }, [.startDaemon], some env.newPid)
  else (st, [], none)

/-- The self-heal entrypoint `ensure_daemon_running` (lines 166-206): stop first when outdated;
return `true` when (still) running; silently return `false` when the
daemon script is missing; otherwise try to start. -/
def ensure_daemon_running (env : HealthEnv) (st : HealthState) :
    HealthState × List HealthAction × Bool :=
  let r1 : HealthState × List HealthAction :=
    if is_daemon_outdated st then
      let r := stop_daemon st
      (r.1, r.2.1)
    else (st, [])
  if is_daemon_running r1.1 then (r1.1, r1.2, true)
  else if !r1.1.scriptExists then (r1.1, r1.2, false)
  else
    let r2 := start_daemon env r1.1
    match r2.2.2 with
    | some _ => (r2.1, r1.2 ++ r2.2.1, true)
    | none => (r2.1, r1.2 ++ r2.2.1, false)

/-! ## Observation predicates used by the theorems -/

/-- A terminal status report for task `n`: a `update_task_status` call
with status `completed` or `failed`. -/
def isTermReport (n : Nat) : Action → Bool
  | .statusReport m .completed _ => m == n
  | .statusReport m .failed _ => m == n
  | _ => false

/-- A status report for task `n` with status `completed`. -/
def isCompletedReport (n : Nat) : Action → Bool
  | .statusReport m .completed _ => m == n
  | _ => false

/-- Local side effects in the sense of the claim-gating invariant:
worktree creation and child spawn. -/
def isLocalSideEffect : Action → Bool
  | .gitCreateWorktree _ => true
  | .spawnChild _ _ => true
  | _ => false

/-- Whether a stdout line matches some stuck pattern. -/
def matchesStuck (line : List Char) : Bool :=
  (check_task_stuck_patterns line).isSome

/-- A needs-input notification for task `n`. -/
def isNeedsInputNotif (n : Nat) : Action → Bool
  | .notify m .needsInput => m == n
  | _ => false

/-- An action that kills or terminates a child process. -/
def isKillAction : Action → Bool
  | .terminateChild _ => true
  | .killChild _ => true
  | _ => false

/-! ## Concrete fixtures used by counterexamples and witnesses -/

/-- A running task's detail record: started at instant 0. -/
def exInfo1 : TaskInfo :=
  { emptyTaskInfo with summary := some "task one", started_at := some 0 }

/-- A daemon state with the single running task `1`. -/
def exSt1 : DaemonState :=
  { running_tasks := [1]
  , task_details := [(1, exInfo1)]
  , completed_today := []
  , task_last_output := [(1, 0)]
  , task_stdout_buffer := [(1, [])]
  , task_project_paths := [(1, none)] }

/-- An environment in which every child has exited with code 0,
observed at instant 100. -/
def exEnvExit0 : ProcEnv :=
  { poll := fun _ => some 0
  , stdoutLines := fun _ => []
  , stderrTail := fun _ => []
  , waitGraceful := fun _ => true
  , prUrl := fun _ => none
  , now := 100 }

/-- An environment observed at instant 3700 (past the 3600s limit for a
task started at 0) in which no child has exited and the graceful wait
after `terminate()` times out. -/
def exEnvTimeout : ProcEnv :=
  { exEnvExit0 with
      now := 3700
      poll := fun _ => none
      waitGraceful := fun _ => false }

/-- Two stdout lines that both match the stuck pattern
`"waiting for permission"`. -/
def exLines2 : List (List Char) :=
  [ "Waiting for permission to edit foo.txt".toList
  , "waiting for permission again".toList ]

/-- A completed-today entry. -/
def exEntry : CompletedEntry :=
  { display_number := 9, summary := "done", completed_at := 0
  , duration_seconds := 1, status := .completed, pr_url := none }

/-- State `exSt1` with ten entries already in the in-memory completed list. -/
def exSt10 : DaemonState :=
  { exSt1 with completed_today := List.replicate 10 exEntry }

/-- A dispatch environment in which the atomic claim is lost
(`{success: true, claimed: false, claimedBy: "other-mac"}`). -/
def exEnvLostClaim : ExecEnv :=
  { globalMode := true
  , registry := fun _ => some "/tmp/repo"
  , claimResponse := some { success := true, claimed := some false
                          , claimedBy := some "other-mac" }
  , analysis := some { score := Rat.divInt 85 100 }
  , worktreeOk := true
  , spawnOk := true
  , spawnError := []
  , childPid := 7
  , now := 0 }

/-- A queued task routed to a registered project. -/
def exTask427 : Task :=
  { displayNumber := some 427
  , gitRemote := some "github.com/o/r"
  , normalizedContent := some "Add tests for X"
  , summary := some "Add tests for X"
  , id := some "uuid-427" }

/-- An idle daemon state. -/
def exStEmpty : DaemonState :=
  { running_tasks := []
  , task_details := []
  , completed_today := []
  , task_last_output := []
  , task_stdout_buffer := []
  , task_project_paths := [] }

/-- A health snapshot with a running daemon recorded at version
"1.0.0" while version "1.7.2" is expected. -/
def exHealthOutdated : HealthState :=
  { pidFile := some 42
  , alive := fun p => p == 42
  , versionFile := some "1.0.0"
  , scriptExists := true
  , expectedVersion := some "1.7.2" }

/-! # Theorems -/

/-- Lemma: `qsub` is subtraction on `ℚ`. -/
theorem qsub_eq_sub (a b : ℚ) : qsub a b = a - b := by
  rw [qsub]
  conv_rhs => rw [← Rat.num_divInt_den a, ← Rat.num_divInt_den b]
  rw [Rat.divInt_sub_divInt _ _ (by exact_mod_cast a.den_nz) (by exact_mod_cast b.den_nz)]

/-- C4: the execution mode derived from a certainty analysis is
`immediate` for scores at or above 0.7, `planning` for scores in
[0.4, 0.7), `clarify` below 0.4 — including the exact boundaries
0.7 → immediate, 0.4 → planning, 0.0 → clarify — and a missing
analysis yields `immediate`. -/
theorem execution_mode_thresholds :
    get_execution_mode none = .immediate ∧
    (∀ a : CertaintyAnalysis, a.score ≥ CERTAINTY_HIGH_THRESHOLD →
      get_execution_mode (some a) = .immediate) ∧
    (∀ a : CertaintyAnalysis, CERTAINTY_LOW_THRESHOLD ≤ a.score →
      a.score < CERTAINTY_HIGH_THRESHOLD → get_execution_mode (some a) = .planning) ∧
    (∀ a : CertaintyAnalysis, a.score < CERTAINTY_LOW_THRESHOLD →
      get_execution_mode (some a) = .clarify) ∧
    get_execution_mode (some { score := CERTAINTY_HIGH_THRESHOLD }) = .immediate ∧
    get_execution_mode (some { score := CERTAINTY_LOW_THRESHOLD }) = .planning ∧
    get_execution_mode (some { score := 0 }) = .clarify := by
  refine ⟨rfl, ?_, ?_, ?_, by decide, by decide, by decide⟩
  · intro a h
    simp only [get_execution_mode, if_pos h]
  · intro a h₁ h₂
    simp only [get_execution_mode]
    rw [if_neg (by exact not_le.mpr h₂), if_pos h₁]
  · intro a h
    have h₂ : a.score < CERTAINTY_HIGH_THRESHOLD := by
      refine lt_of_lt_of_le h ?_
      rw [CERTAINTY_LOW_THRESHOLD, CERTAINTY_HIGH_THRESHOLD]
      norm_num [Rat.divInt_eq_div]
    simp only [get_execution_mode]
    rw [if_neg (by exact not_le.mpr h₂), if_neg (by exact not_le.mpr h)]

/-- Witness for the threshold theorem at scores 0.8, 0.5 and 0.1. -/
theorem execution_mode_thresholds_witness :
    get_execution_mode (some { score := Rat.divInt 8 10 }) = .immediate ∧
    get_execution_mode (some { score := Rat.divInt 5 10 }) = .planning ∧
    get_execution_mode (some { score := Rat.divInt 1 10 }) = .clarify :=
  ⟨execution_mode_thresholds.2.1 { score := Rat.divInt 8 10 } (by decide),
   execution_mode_thresholds.2.2.1 { score := Rat.divInt 5 10 } (by decide) (by decide),
   execution_mode_thresholds.2.2.2.1 { score := Rat.divInt 1 10 } (by decide)⟩

/-- C3: `claim_task` treats the response as a won claim exactly when it
carries `claimed: true`, or carries no `claimed` key but `success:
true`; a `claimed: false` response and a failed request are lost
claims. -/
theorem claim_task_response_semantics :
    claim_task_result none = false ∧
    (∀ r : ClaimResponse,
      claim_task_result (some r) = true ↔
        (r.claimed = some true ∨ (r.claimed = none ∧ r.success = true))) ∧
    (∀ r : ClaimResponse, r.claimed = some false →
      claim_task_result (some r) = false) := by
  refine ⟨rfl, ?_, ?_⟩
  · rintro ⟨s, c, cb⟩
    rcases c with _ | b
    · cases s <;> simp [claim_task_result]
    · cases b <;> cases s <;> simp [claim_task_result]
  · rintro ⟨s, c, cb⟩ h
    cases h
    cases s <;> simp [claim_task_result]

/-- Witness: a lost claim `{success: true, claimed: false}` is refused. -/
theorem claim_task_response_semantics_witness :
    claim_task_result (some { success := true, claimed := some false
                            , claimedBy := some "other-mac" }) = false :=
  claim_task_response_semantics.2.2 _ rfl

/-- Helper: a string that the normalization leaves alone stage by stage
is a fixed point of `normalizeRemote`. -/
theorem normalizeRemote_fixpoint (t : List Char)
    (h1 : stripProtocol protocolHeads t = t)
    (h2 : containsSub [':'] t = false)
    (h3 : (".git".toList).isSuffixOf t = false) :
    normalizeRemote t = t := by
  simp only [normalizeRemote, h1, h2, h3, Bool.false_and, if_neg Bool.false_ne_true]

/-- C9 counterexample: normalization is not idempotent; the normal form
of `"a:b:c"` still contains a colon, so a second pass rewrites it. -/
theorem normalizeRemote_not_idempotent :
    normalizeRemote (normalizeRemote ("a:b:c".toList)) ≠
      normalizeRemote ("a:b:c".toList) := by decide

/-- C9 (amended): normalization is idempotent on every URL whose
normalized form does not itself start with a protocol prefix, contains
no colon, and does not end in `.git` (in particular on all well-formed
remote URLs); in general a second pass can differ (see the
counterexample). -/
theorem normalizeRemote_idempotent_on_normal_forms (s : List Char)
    (h1 : stripProtocol protocolHeads (normalizeRemote s) = normalizeRemote s)
    (h2 : containsSub [':'] (normalizeRemote s) = false)
    (h3 : (".git".toList).isSuffixOf (normalizeRemote s) = false) :
    normalizeRemote (normalizeRemote s) = normalizeRemote s :=
  normalizeRemote_fixpoint _ h1 h2 h3

/-- Witness: re-normalizing the normal form of a well-formed https
remote URL is the identity. -/
theorem normalizeRemote_idempotent_witness :
    normalizeRemote (normalizeRemote ("https://github.com/user/repo.git".toList)) =
      normalizeRemote ("https://github.com/user/repo.git".toList) :=
  normalizeRemote_idempotent_on_normal_forms _ (by decide) (by decide) (by decide)

/-- C10: a registry file that exists but cannot be parsed or read loads
as a fresh empty registry — lookups return nothing, the project count
is 0 — and the next `register` writes a fresh document holding only the
new entry (with itself as default), silently discarding the previous
contents. -/
theorem corrupt_registry_behaves_empty :
    registry_load .corrupt = emptyRegistry ∧
    (∀ r now, registry_get_path (registry_load .corrupt) r now =
      (none, registry_load .corrupt)) ∧
    (∀ r, registry_get_path_without_update (registry_load .corrupt) r = none) ∧
    (∀ r, registry_is_registered (registry_load .corrupt) r = false) ∧
    registry_project_count (registry_load .corrupt) = 0 ∧
    (∀ r p now, registry_register (registry_load .corrupt) r p now =
      ({ version := REGISTRY_VERSION
       , projects := [(r, { local_path := p, registered_at := now, last_used := now })]
       , default_project := some r }, true)) := by
  refine ⟨rfl, fun r now => rfl, fun r => rfl, fun r => rfl, rfl, fun r p now => rfl⟩

/-- C7: `ensure_daemon_running` is a no-op for a running current-version
daemon; stops and restarts a running daemon whose recorded version
differs from the expected one; starts the daemon when it is not
running; and never starts anything when the daemon script is missing
(returning `false` silently when nothing was running). -/
theorem ensure_daemon_running_spec (env : HealthEnv) (st : HealthState) :
    (is_daemon_running st = true → is_daemon_outdated st = false →
      ensure_daemon_running env st = (st, [], true)) ∧
    (∀ p ev, st.pidFile = some p → st.alive p = true →
      st.expectedVersion = some ev → st.versionFile ≠ some ev →
      st.scriptExists = true → env.startOk = true →
      (ensure_daemon_running env st).2.1 = [.sigterm p, .startDaemon] ∧
      (ensure_daemon_running env st).2.2 = true) ∧
    (is_daemon_running st = false → st.scriptExists = true → env.startOk = true →
      (ensure_daemon_running env st).2.1 = [.startDaemon] ∧
      (ensure_daemon_running env st).2.2 = true) ∧
    (st.scriptExists = false →
      HealthAction.startDaemon ∉ (ensure_daemon_running env st).2.1 ∧
      (is_daemon_running st = false →
        ensure_daemon_running env st = (st, [], false))) := by
  refine ⟨?_, ?_, ?_, ?_⟩
  · intro hrun hout
    simp [ensure_daemon_running, hout, hrun]
  · intro p ev hpid halive hev hvne hscript hok
    have hrun : is_daemon_running st = true := by
      simp [is_daemon_running, hpid, halive]
    have hout : is_daemon_outdated st = true := by
      simp only [is_daemon_outdated, hev, hrun, Bool.not_true, Bool.false_eq_true,
        if_false]
      rcases hv : st.versionFile with _ | rv
      · rfl
      · rw [hv] at hvne
        simp [decide_eq_true_eq]
        intro h
        exact hvne (by rw [h])
    have hstop : stop_daemon st = ({ st with pidFile := none }, [.sigterm p], true) := by
      simp [stop_daemon, hpid, halive]
    simp [ensure_daemon_running, hout, hstop, is_daemon_running, hscript,
      start_daemon, hok]
  · intro hrun hscript hok
    rcases hout : is_daemon_outdated st with _ | _
    · simp [ensure_daemon_running, hout, hrun, hscript, start_daemon, hok]
    · exfalso
      have : is_daemon_running st = true := by
        by_contra hc
        simp only [is_daemon_outdated] at hout
        rcases hev : st.expectedVersion with _ | ev
        · rw [hev] at hout; exact absurd hout (by simp)
        · rw [hev] at hout
          rw [hrun] at hout
          simp at hout
      rw [this] at hrun
      exact absurd hrun (by simp)
  · intro hscript
    constructor
    · rcases hout : is_daemon_outdated st with _ | _
      · rcases hrun : is_daemon_running st with _ | _
        · simp [ensure_daemon_running, hout, hrun, hscript]
        · simp [ensure_daemon_running, hout, hrun]
      · -- outdated: stop first, then the script check fails
        have hrun : is_daemon_running st = true := by
          by_contra hc
          simp only [is_daemon_outdated] at hout
          rcases hev : st.expectedVersion with _ | ev
          · rw [hev] at hout; exact absurd hout (by simp)
          · rw [hev] at hout
            simp only [Bool.not_eq_true] at hc
            rw [hc] at hout
            simp at hout
        obtain ⟨p, hpid⟩ : ∃ p, st.pidFile = some p := by
          rcases hp : st.pidFile with _ | p
          · rw [is_daemon_running, hp] at hrun; exact absurd hrun (by simp)
          · exact ⟨p, rfl⟩
        have halive : st.alive p = true := by
          rw [is_daemon_running, hpid] at hrun; exact hrun
        have hstop : stop_daemon st = ({ st with pidFile := none }, [.sigterm p], true) := by
          simp [stop_daemon, hpid, halive]
        simp [ensure_daemon_running, hout, hstop, is_daemon_running, hscript]
    · intro hrun
      have hout : is_daemon_outdated st = false := by
        simp only [is_daemon_outdated]
        rcases hev : st.expectedVersion with _ | ev
        · rfl
        · rw [hrun]
          rfl
      simp [ensure_daemon_running, hout, hrun, hscript]

/-- Witness: the outdated running daemon `exHealthOutdated` is stopped
and restarted; a missing script leads to a silent no-start. -/
theorem ensure_daemon_running_spec_witness :
    (ensure_daemon_running { newPid := 43, startOk := true } exHealthOutdated).2.1 =
      [.sigterm 42, .startDaemon] ∧
    (ensure_daemon_running { newPid := 43, startOk := true } exHealthOutdated).2.2 = true :=
  (ensure_daemon_running_spec { newPid := 43, startOk := true } exHealthOutdated).2.1
    42 "1.7.2" rfl (by decide) rfl (by decide) rfl rfl

/-- Helper: with a failed claim in global mode, `execute_task` leaves
the state untouched and emits at most the claim request itself. -/
theorem execute_task_claim_failed (env : ExecEnv) (task : Task) (st : DaemonState)
    (hg : env.globalMode = true)
    (hcf : claim_task_result env.claimResponse = false) :
    (execute_task env task st).1 = st ∧
    ((execute_task env task st).2 = [] ∨
      ∃ n, (execute_task env task st).2 = [Action.apiClaim n]) := by
  obtain ⟨dn, gr, nc, sm, tid⟩ := task
  rcases dn with _ | n
  · exact ⟨rfl, Or.inl rfl⟩
  · unfold execute_task
    dsimp only
    split
    · exact ⟨rfl, Or.inl rfl⟩
    · split
      · exact ⟨rfl, Or.inl rfl⟩
      · split
        · exact ⟨rfl, Or.inl rfl⟩
        · split
          · exact ⟨rfl, Or.inl rfl⟩
          · rw [if_pos (by rw [hg, hcf]; rfl)]
            exact ⟨rfl, Or.inr ⟨n, rfl⟩⟩

/-- C2: in routed (global) mode a successful atomic claim gates every
local side effect: when `claim_task` reports a lost claim no worktree
is created, no child is spawned and the running table is untouched; and
conversely any emitted worktree-creation or spawn action implies the
claim succeeded. -/
theorem routed_claim_gates_side_effects (env : ExecEnv) (task : Task)
    (st : DaemonState) (hg : env.globalMode = true) :
    (claim_task_result env.claimResponse = false →
      (execute_task env task st).1 = st ∧
      (execute_task env task st).2.filter isLocalSideEffect = []) ∧
    (∀ a ∈ (execute_task env task st).2, isLocalSideEffect a = true →
      claim_task_result env.claimResponse = true) := by
  constructor
  · intro hcf
    obtain ⟨h1, h2⟩ := execute_task_claim_failed env task st hg hcf
    refine ⟨h1, ?_⟩
    rcases h2 with h | ⟨n, h⟩ <;> rw [h] <;> rfl
  · intro a ha hla
    rcases hc : claim_task_result env.claimResponse with _ | _
    · exfalso
      obtain ⟨h1, h2⟩ := execute_task_claim_failed env task st hg hc
      rcases h2 with h | ⟨n, h⟩ <;> rw [h] at ha
      · exact absurd ha (List.not_mem_nil a)
      · rw [List.mem_singleton.mp ha] at hla
        simp [isLocalSideEffect] at hla
    · rfl

/-- Witness: a lost claim for task 427 (`claimed: false`) leaves the
idle daemon state unchanged and produces no local side effects. -/
theorem routed_claim_gates_side_effects_witness :
    (execute_task exEnvLostClaim exTask427 exStEmpty).1 = exStEmpty ∧
    (execute_task exEnvLostClaim exTask427 exStEmpty).2.filter isLocalSideEffect = [] :=
  (routed_claim_gates_side_effects exEnvLostClaim exTask427 exStEmpty rfl).1 (by decide)

/-- Updating key `k` then looking it up yields the updated value. -/
theorem alookup_aupd_self {α : Type} (k : Nat) (dflt : α) (f : α → α)
    (l : List (Nat × α)) :
    alookup k (aupd k dflt f l) = some (f ((alookup k l).getD dflt)) := by
  induction l with
  | nil => simp [alookup, aupd]
  | cons h t ih =>
      obtain ⟨k', v⟩ := h
      by_cases hk : k' = k
      · subst hk; simp [alookup, aupd]
      · simp [alookup, aupd, hk, ih]

/-- Updating key `k` leaves every other key's binding unchanged. -/
theorem alookup_aupd_other {α : Type} (k m : Nat) (dflt : α) (f : α → α)
    (l : List (Nat × α)) (h : m ≠ k) :
    alookup m (aupd k dflt f l) = alookup m l := by
  induction l with
  | nil => simp [alookup, aupd, Ne.symm h]
  | cons hd t ih =>
      obtain ⟨k', v⟩ := hd
      by_cases hk : k' = k
      · subst hk
        simp [alookup, aupd, Ne.symm h]
      · simp [alookup, aupd, hk, ih]

/-- Lemma: `processLine` never touches the running table, the completed list or
another task's details; its actions are status-file writes and
needs-input notifications; it notifies exactly once when the line
matches a stuck pattern and then records phase `stuck`; a non-matching
line leaves `task_details` unchanged. -/
theorem processLine_spec (n : Nat) (now : ℚ) (st : DaemonState) (line : List Char) :
    (processLine n now st line).1.running_tasks = st.running_tasks ∧
    (processLine n now st line).1.completed_today = st.completed_today ∧
    (∀ m, m ≠ n →
      alookup m (processLine n now st line).1.task_details = alookup m st.task_details) ∧
    (∀ a ∈ (processLine n now st line).2,
      a = Action.writeStatus ∨ a = Action.notify n .needsInput) ∧
    ((processLine n now st line).2.countP (isNeedsInputNotif n) =
      if matchesStuck line then 1 else 0) ∧
    (matchesStuck line = true →
      ((alookup n (processLine n now st line).1.task_details).getD emptyTaskInfo).phase =
        some .stuck) ∧
    (matchesStuck line = false →
      (processLine n now st line).1.task_details = st.task_details) := by
  rcases hm : check_task_stuck_patterns line with _ | reason
  · have hms : matchesStuck line = false := by simp [matchesStuck, hm]
    unfold processLine
    rw [hm]
    refine ⟨rfl, rfl, fun m _ => rfl, ?_, ?_, ?_, fun _ => rfl⟩
    · intro a ha
      exact absurd ha (List.not_mem_nil a)
    · rw [hms]
      rfl
    · intro hc
      rw [hms] at hc
      exact (Bool.false_ne_true hc).elim
  · have hms : matchesStuck line = true := by simp [matchesStuck, hm]
    unfold processLine
    rw [hm]
    refine ⟨rfl, rfl, ?_, ?_, ?_, ?_, ?_⟩
    · intro m hmn
      exact alookup_aupd_other n m emptyTaskInfo _ st.task_details hmn
    · intro a ha
      have ha' : a ∈ [Action.writeStatus, Action.notify n .needsInput] := ha
      rcases List.mem_cons.mp ha' with rfl | ha''
      · exact Or.inl rfl
      · exact Or.inr (List.mem_singleton.mp ha'')
    · rw [hms]
      show List.countP (isNeedsInputNotif n)
        [Action.writeStatus, Action.notify n .needsInput] = 1
      simp [isNeedsInputNotif, List.countP_cons]
    · intro _
      show ((alookup n (aupd n emptyTaskInfo _ st.task_details)).getD emptyTaskInfo).phase =
        some .stuck
      rw [alookup_aupd_self]
      rfl
    · intro hc
      rw [hms] at hc
      simp at hc

/-- Action-list and state facts about the stdout read loop, by
induction over the available lines: the notification count equals the
number of matching lines, any match pins phase `stuck`, a match-free
batch leaves `task_details` unchanged, and only status-file writes and
needs-input notifications are emitted. -/
theorem processLines_spec (n : Nat) (now : ℚ) :
    ∀ (lines : List (List Char)) (st : DaemonState),
    (processLines n now st lines).1.running_tasks = st.running_tasks ∧
    (processLines n now st lines).1.completed_today = st.completed_today ∧
    (∀ m, m ≠ n →
      alookup m (processLines n now st lines).1.task_details = alookup m st.task_details) ∧
    (∀ a ∈ (processLines n now st lines).2,
      a = Action.writeStatus ∨ a = Action.notify n .needsInput) ∧
    ((processLines n now st lines).2.countP (isNeedsInputNotif n) =
      lines.countP matchesStuck) ∧
    (lines.any matchesStuck = true →
      ((alookup n (processLines n now st lines).1.task_details).getD emptyTaskInfo).phase =
        some .stuck) ∧
    (lines.any matchesStuck = false →
      (processLines n now st lines).1.task_details = st.task_details)
  | [], st => by
      refine ⟨rfl, rfl, fun m _ => rfl, ?_, by simp [processLines], ?_, fun _ => rfl⟩
      · intro a ha; exact absurd ha (List.not_mem_nil a)
      · intro hc; exact absurd hc (by simp)
  | line :: rest, st => by
      obtain ⟨h1, h2, h3, h4, h5, h6, h7⟩ := processLine_spec n now st line
      obtain ⟨g1, g2, g3, g4, g5, g6, g7⟩ :=
        processLines_spec n now rest (processLine n now st line).1
      simp only [processLines]
      refine ⟨g1.trans h1, g2.trans h2, ?_, ?_, ?_, ?_, ?_⟩
      · intro m hmn
        exact (g3 m hmn).trans (h3 m hmn)
      · intro a ha
        rcases List.mem_append.mp ha with ha | ha
        · exact h4 a ha
        · exact g4 a ha
      · rw [List.countP_append, h5, g5, List.countP_cons]
        rcases hms : matchesStuck line <;> simp [hms, Nat.add_comm]
      · intro hany
        rcases hrest : rest.any matchesStuck with _ | _
        · have hms : matchesStuck line = true := by
            rcases List.any_eq_true.mp hany with ⟨l, hl, hml⟩
            rcases List.mem_cons.mp hl with rfl | hl
            · exact hml
            · exact absurd (List.any_eq_true.mpr ⟨l, hl, hml⟩) (by rw [hrest]; simp)
          rw [g7 hrest]
          exact h6 hms
        · exact g6 hrest
      · intro hnone
        have hparts := List.any_eq_false.mp hnone
        have hms : matchesStuck line = false := by
          have := hparts line (List.mem_cons_self line rest)
          simpa using this
        have hrest : rest.any matchesStuck = false := by
          rw [List.any_eq_false]
          intro l hl
          exact hparts l (List.mem_cons_of_mem line hl)
        rw [g7 hrest, h7 hms]

/-- C6 counterexample: two stdout lines both matching a stuck pattern
trigger two needs-input notifications for the task — not exactly one. -/
theorem stuck_notification_not_deduplicated :
    ((monitor_task_stdout 1 100 exLines2 exSt1).2.countP (isNeedsInputNotif 1)) = 2 ∧
    ((monitor_task_stdout 1 100 exLines2 exSt1).2.countP (isNeedsInputNotif 1)) ≠ 1 := by
  constructor <;> decide

/-- C6 (amended): every stdout line matching a stuck pattern
(case-insensitively) sets the task's phase to `stuck` and triggers a
needs-input notification — the first match does so, but each further
matching line notifies again, so the notification count equals the
number of matching lines read (at most 100 per cycle); the monitor
never kills or terminates the child and leaves the running table
unchanged. -/
theorem stuck_lines_notify_per_match (n : Nat) (now : ℚ)
    (lines : List (List Char)) (st : DaemonState) :
    ((monitor_task_stdout n now lines st).2.countP (isNeedsInputNotif n) =
      (lines.take 100).countP matchesStuck) ∧
    ((lines.take 100).any matchesStuck = true →
      ((alookup n (monitor_task_stdout n now lines st).1.task_details).getD
        emptyTaskInfo).phase = some .stuck) ∧
    (∀ a ∈ (monitor_task_stdout n now lines st).2, isKillAction a = false) ∧
    (monitor_task_stdout n now lines st).1.running_tasks = st.running_tasks := by
  unfold monitor_task_stdout
  obtain ⟨g1, g2, g3, g4, g5, g6, g7⟩ := processLines_spec n now (lines.take 100) _
  refine ⟨g5, g6, ?_, ?_⟩
  · intro a ha
    rcases g4 a ha with rfl | rfl <;> rfl
  · rw [g1]
    split <;> split <;> rfl

/-- Witness: on the two matching lines of `exLines2`, the task's phase
ends up `stuck`. -/
theorem stuck_lines_notify_per_match_witness :
    ((alookup 1 (monitor_task_stdout 1 100 exLines2 exSt1).1.task_details).getD
      emptyTaskInfo).phase = some .stuck :=
  (stuck_lines_notify_per_match 1 100 exLines2 exSt1).2.1 (by decide)

/-- C8 counterexample: with ten entries already recorded, reaping one
more completed task grows the in-memory `completed_today` collection to
eleven entries — the collection itself is not capped at 10. -/
theorem completed_today_memory_unbounded :
    (check_running_tasks exEnvExit0 exSt10).1.completed_today.length = 11 ∧
    ¬ (check_running_tasks exEnvExit0 exSt10).1.completed_today.length ≤ 10 := by
  constructor <;> decide

/-- C8 (amended): the in-memory completed-today collection is unbounded
(every terminal transition appends without truncation); the 10-entry
cap applies to the status file, whose `completed_today` field always
lists at most 10 entries and is a suffix (the most recent entries) of
the in-memory collection. -/
theorem status_file_completed_capped (st : DaemonState) :
    (statusFileCompleted st).length ≤ 10 ∧
    statusFileCompleted st <:+ st.completed_today := by
  constructor
  · rw [statusFileCompleted, List.length_drop]
    omega
  · exact List.drop_suffix _ _

/-! ### Substring-containment lemmas for the timeout message -/

/-- The empty pattern is contained in every string. -/
theorem containsSub_nil_pat : ∀ l : List Char, containsSub [] l = true
  | [] => rfl
  | _ :: _ => by simp [containsSub]

/-- A prefix is contained. -/
theorem containsSub_of_isPrefixOf (p : List Char) :
    ∀ l : List Char, p.isPrefixOf l = true → containsSub p l = true := by
  intro l h
  cases l with
  | nil =>
      cases p with
      | nil => rfl
      | cons c cs => exact absurd h (by simp [List.isPrefixOf])
  | cons c cs =>
      simp only [containsSub, Bool.or_eq_true]
      exact Or.inl h

/-- Containment extends to the right of an append. -/
theorem containsSub_append_right (p b : List Char) (h : containsSub p b = true) :
    ∀ a : List Char, containsSub p (a ++ b) = true
  | [] => h
  | c :: cs => by
      simp only [List.cons_append, containsSub, Bool.or_eq_true]
      exact Or.inr (containsSub_append_right p b h cs)

/-- Containment extends to the left of an append. -/
theorem containsSub_append_left (p : List Char) :
    ∀ (a : List Char), containsSub p a = true → ∀ b, containsSub p (a ++ b) = true := by
  intro a
  induction a with
  | nil =>
      intro h b
      cases p with
      | nil => exact containsSub_nil_pat b
      | cons c cs => exact absurd h (by simp [containsSub, List.isEmpty])
  | cons c cs ih =>
      intro h b
      simp only [containsSub, Bool.or_eq_true] at h
      simp only [List.cons_append, containsSub, Bool.or_eq_true]
      rcases h with h | h
      · refine Or.inl ?_
        rw [List.isPrefixOf_iff_prefix] at h ⊢
        exact h.trans (List.prefix_append _ _)
      · exact Or.inr (ih h b)

/-- A string contains itself (followed by anything). -/
theorem containsSub_self_append (p rest : List Char) :
    containsSub p (p ++ rest) = true := by
  cases p with
  | nil => exact containsSub_nil_pat rest
  | cons c cs =>
      apply containsSub_of_isPrefixOf
      rw [List.isPrefixOf_iff_prefix]
      exact List.prefix_append _ _

/-- A string contains itself. -/
theorem containsSub_self (p : List Char) : containsSub p p = true := by
  have := containsSub_self_append p []
  rwa [List.append_nil] at this

/-- The timeout message contains the words "timed out" and the decimal
rendering of the duration. -/
theorem timeoutMsg_contains (d : Int) :
    containsSub ("timed out".toList) (timeoutMsg d) = true ∧
    containsSub (intStr d) (timeoutMsg d) = true := by
  constructor
  · rw [timeoutMsg]
    apply containsSub_append_left
    apply containsSub_append_left
    apply containsSub_append_left
    apply containsSub_append_left
    decide
  · rw [timeoutMsg]
    apply containsSub_append_left
    apply containsSub_append_left
    apply containsSub_append_left
    apply containsSub_append_right
    exact containsSub_self _

/-! ### Frame and counting lemmas for the reap pass -/

/-- Congruence: `timeoutCond` only reads the task's own details. -/
theorem timeoutCond_congr (env : ProcEnv) (st st' : DaemonState) (n : Nat)
    (h : alookup n st'.task_details = alookup n st.task_details) :
    timeoutCond env st' n = timeoutCond env st n := by
  rw [timeoutCond, timeoutCond, h]

/-- Congruence: `reapDuration` only reads the task's own details. -/
theorem reapDuration_congr (env : ProcEnv) (st st' : DaemonState) (n : Nat)
    (h : alookup n st'.task_details = alookup n st.task_details) :
    reapDuration env st' n = reapDuration env st n := by
  rw [reapDuration, reapDuration, h]

/-- The stdout monitor emits no status reports at all. -/
theorem monitor_no_reports (n : Nat) (now : ℚ) (lines : List (List Char))
    (st : DaemonState) (k : Nat) :
    (monitor_task_stdout n now lines st).2.countP (isTermReport k) = 0 ∧
    (monitor_task_stdout n now lines st).2.countP (isCompletedReport k) = 0 := by
  unfold monitor_task_stdout
  obtain ⟨_, _, _, g4, _⟩ := processLines_spec n now (lines.take 100) _
  constructor <;>
    · rw [List.countP_eq_zero]
      intro a ha
      rcases g4 a ha with rfl | rfl <;> simp [isTermReport, isCompletedReport]

/-- The stdout monitor leaves the running table, the completed list and
other tasks' details unchanged. -/
theorem monitor_frame (n : Nat) (now : ℚ) (lines : List (List Char))
    (st : DaemonState) :
    (monitor_task_stdout n now lines st).1.running_tasks = st.running_tasks ∧
    (monitor_task_stdout n now lines st).1.completed_today = st.completed_today ∧
    (∀ m, m ≠ n →
      alookup m (monitor_task_stdout n now lines st).1.task_details =
        alookup m st.task_details) := by
  unfold monitor_task_stdout
  obtain ⟨g1, g2, g3, _⟩ := processLines_spec n now (lines.take 100) _
  refine ⟨?_, ?_, ?_⟩
  · rw [g1]; split <;> split <;> rfl
  · rw [g2]; split <;> split <;> rfl
  · intro m hmn
    rw [g3 m hmn]
    split <;> split <;> rfl

/-- A timed-out task is skipped by the scan loop (`continue`). -/
theorem reapOne_timeout (env : ProcEnv) (st : DaemonState) (n : Nat)
    (h : timeoutCond env st n = true) :
    reapOne env st n = (st, [], none, some n) := by
  unfold reapOne
  rw [h]
  rfl

/-- The monitored/idle-checked portion of a scan iteration emits no
status reports and preserves the running table, the completed list and
other tasks' details. -/
theorem reapMonitored_spec (env : ProcEnv) (st : DaemonState) (n : Nat) :
    (∀ k, (reapMonitored env st n).2.countP (isTermReport k) = 0) ∧
    (∀ k, (reapMonitored env st n).2.countP (isCompletedReport k) = 0) ∧
    (reapMonitored env st n).1.running_tasks = st.running_tasks ∧
    (reapMonitored env st n).1.completed_today = st.completed_today ∧
    (∀ m, m ≠ n →
      alookup m (reapMonitored env st n).1.task_details = alookup m st.task_details) := by
  obtain ⟨f1, f2, f3⟩ := monitor_frame n env.now (env.stdoutLines n) st
  have hM1 := fun k => (monitor_no_reports n env.now (env.stdoutLines n) st k).1
  have hM2 := fun k => (monitor_no_reports n env.now (env.stdoutLines n) st k).2
  by_cases hidle : check_task_idle n env.now
      (monitor_task_stdout n env.now (env.stdoutLines n) st).1 = true
  · simp only [reapMonitored]
    rw [if_pos hidle]
    refine ⟨?_, ?_, f1, f2, ?_⟩
    · intro k
      rw [List.countP_append, hM1 k]
      rfl
    · intro k
      rw [List.countP_append, hM2 k]
      rfl
    · intro m hmn
      show alookup m (aupd n emptyTaskInfo _
        (monitor_task_stdout n env.now (env.stdoutLines n) st).1.task_details) =
        alookup m st.task_details
      rw [alookup_aupd_other _ _ _ _ _ hmn]
      exact f3 m hmn
  · simp only [reapMonitored]
    rw [if_neg hidle]
    exact ⟨hM1, hM2, f1, f2, f3⟩

/-- Scan-loop facts for a task that neither timed out nor exited:
no reports, no flags, frame preserved. -/
theorem reapOne_spec_none (env : ProcEnv) (st : DaemonState) (n : Nat)
    (h : timeoutCond env st n = false) (hp : env.poll n = none) :
    (∀ k, (reapOne env st n).2.1.countP (isTermReport k) = 0) ∧
    (∀ k, (reapOne env st n).2.1.countP (isCompletedReport k) = 0) ∧
    (reapOne env st n).2.2.1 = none ∧ (reapOne env st n).2.2.2 = none ∧
    (reapOne env st n).1.running_tasks = st.running_tasks ∧
    st.completed_today <+: (reapOne env st n).1.completed_today ∧
    (∀ m, m ≠ n →
      alookup m (reapOne env st n).1.task_details = alookup m st.task_details) := by
  have h' : ¬ (timeoutCond env st n = true) := by rw [h]; exact Bool.false_ne_true
  obtain ⟨m1, m2, m3, m4, m5⟩ := reapMonitored_spec env st n
  simp only [reapOne]
  rw [if_neg h', hp]
  exact ⟨m1, m2, rfl, rfl, m3, by rw [m4], m5⟩

/-- Scan-loop facts for a task whose child exited with code `rc`:
exactly one `failed` report when `rc ≠ 0`, none when `rc = 0`, never a
`completed` report; flagged completed; frame preserved and one entry
appended to the completed list. -/
theorem reapOne_spec_exit (env : ProcEnv) (st : DaemonState) (n : Nat) (rc : Int)
    (h : timeoutCond env st n = false) (hp : env.poll n = some rc) :
    ((reapOne env st n).2.1.countP (isTermReport n) = if rc = 0 then 0 else 1) ∧
    (∀ k, k ≠ n → (reapOne env st n).2.1.countP (isTermReport k) = 0) ∧
    (∀ k, (reapOne env st n).2.1.countP (isCompletedReport k) = 0) ∧
    (reapOne env st n).2.2.1 = some n ∧ (reapOne env st n).2.2.2 = none ∧
    (reapOne env st n).1.running_tasks = st.running_tasks ∧
    st.completed_today <+: (reapOne env st n).1.completed_today ∧
    (∀ m, m ≠ n →
      alookup m (reapOne env st n).1.task_details = alookup m st.task_details) := by
  have h' : ¬ (timeoutCond env st n = true) := by rw [h]; exact Bool.false_ne_true
  obtain ⟨m1, m2, m3, m4, m5⟩ := reapMonitored_spec env st n
  simp only [reapOne]
  rw [if_neg h', hp]
  dsimp only
  by_cases hrc : rc = 0
  · rw [if_pos hrc]
    refine ⟨?_, ?_, ?_, rfl, rfl, m3, ?_, m5⟩
    · rw [if_pos hrc, List.countP_append, List.countP_append, m1 n]
      rfl
    · intro k _
      rw [List.countP_append, List.countP_append, m1 k]
      rfl
    · intro k
      rw [List.countP_append, List.countP_append, m2 k]
      rfl
    · rw [← m4]
      exact (List.prefix_append _ _)
  · rw [if_neg hrc]
    refine ⟨?_, ?_, ?_, rfl, rfl, m3, ?_, m5⟩
    · rw [if_neg hrc, List.countP_append, List.countP_append, m1 n]
      simp [isTermReport]
    · intro k hk
      rw [List.countP_append, List.countP_append, m1 k]
      simp [isTermReport, Ne.symm hk]
    · intro k
      rw [List.countP_append, List.countP_append, m2 k]
      simp [isCompletedReport]
    · rw [← m4]
      exact (List.prefix_append _ _)

/-- One scan iteration (any case) preserves the running table, extends
the completed list and leaves other tasks' details unchanged. -/
theorem reapOne_frame (env : ProcEnv) (st : DaemonState) (n : Nat) :
    (reapOne env st n).1.running_tasks = st.running_tasks ∧
    st.completed_today <+: (reapOne env st n).1.completed_today ∧
    (∀ m, m ≠ n →
      alookup m (reapOne env st n).1.task_details = alookup m st.task_details) := by
  rcases hto : timeoutCond env st n with _ | _
  · rcases hp : env.poll n with _ | rc
    · obtain ⟨_, _, _, _, f1, f2, f3⟩ := reapOne_spec_none env st n hto hp
      exact ⟨f1, f2, f3⟩
    · obtain ⟨_, _, _, _, _, f1, f2, f3⟩ := reapOne_spec_exit env st n rc hto hp
      exact ⟨f1, f2, f3⟩
  · rw [reapOne_timeout env st n hto]
    exact ⟨rfl, List.prefix_refl _, fun m _ => rfl⟩

/-- A scan iteration flags at most its own task. -/
theorem reapOne_flags (env : ProcEnv) (st : DaemonState) (n : Nat) :
    ((reapOne env st n).2.2.1 = none ∨ (reapOne env st n).2.2.1 = some n) ∧
    ((reapOne env st n).2.2.2 = none ∨ (reapOne env st n).2.2.2 = some n) := by
  rcases hto : timeoutCond env st n with _ | _
  · rcases hp : env.poll n with _ | rc
    · obtain ⟨_, _, f1, f2, _⟩ := reapOne_spec_none env st n hto hp
      exact ⟨Or.inl f1, Or.inl f2⟩
    · obtain ⟨_, _, _, f1, f2, _⟩ := reapOne_spec_exit env st n rc hto hp
      exact ⟨Or.inr f1, Or.inl f2⟩
  · rw [reapOne_timeout env st n hto]
    exact ⟨Or.inl rfl, Or.inr rfl⟩

/-- A scan iteration reports nothing about other tasks. -/
theorem reapOne_reports_other (env : ProcEnv) (st : DaemonState) (n k : Nat)
    (hk : k ≠ n) :
    (reapOne env st n).2.1.countP (isTermReport k) = 0 ∧
    (reapOne env st n).2.1.countP (isCompletedReport k) = 0 := by
  rcases hto : timeoutCond env st n with _ | _
  · rcases hp : env.poll n with _ | rc
    · obtain ⟨f1, f2, _⟩ := reapOne_spec_none env st n hto hp
      exact ⟨f1 k, f2 k⟩
    · obtain ⟨_, f1, f2, _⟩ := reapOne_spec_exit env st n rc hto hp
      exact ⟨f1 k hk, f2 k⟩
  · rw [reapOne_timeout env st n hto]
    exact ⟨rfl, rfl⟩

/-- The scan loop preserves the running table, only extends the
completed list, and leaves the details of unscanned tasks unchanged. -/
theorem reapScan_frame (env : ProcEnv) : ∀ (ns : List Nat) (st : DaemonState),
    (reapScan env st ns).1.running_tasks = st.running_tasks ∧
    st.completed_today <+: (reapScan env st ns).1.completed_today ∧
    (∀ m, m ∉ ns →
      alookup m (reapScan env st ns).1.task_details = alookup m st.task_details)
  | [], st => ⟨rfl, List.prefix_refl _, fun m _ => rfl⟩
  | n :: rest, st => by
      obtain ⟨o1, o2, o3⟩ := reapOne_frame env st n
      obtain ⟨s1, s2, s3⟩ := reapScan_frame env rest (reapOne env st n).1
      simp only [reapScan]
      refine ⟨s1.trans o1, o2.trans s2, ?_⟩
      intro m hm
      have hm1 : m ≠ n := fun hc => hm (hc ▸ List.mem_cons_self n rest)
      have hm2 : m ∉ rest := fun hc => hm (List.mem_cons_of_mem n hc)
      rw [s3 m hm2, o3 m hm1]

/-- The `completed` and `timed_out` lists collected by the scan are
sublists of the scanned keys. -/
theorem reapScan_sublist (env : ProcEnv) : ∀ (ns : List Nat) (st : DaemonState),
    List.Sublist (reapScan env st ns).2.2.1 ns ∧ List.Sublist (reapScan env st ns).2.2.2 ns
  | [], _ => ⟨List.Sublist.refl _, List.Sublist.refl _⟩
  | n :: rest, st => by
      obtain ⟨s1, s2⟩ := reapScan_sublist env rest (reapOne env st n).1
      obtain ⟨f1, f2⟩ := reapOne_flags env st n
      simp only [reapScan]
      constructor
      · rcases f1 with h | h <;> rw [h]
        · exact s1.cons n
        · exact s1.cons₂ n
      · rcases f2 with h | h <;> rw [h]
        · exact s2.cons n
        · exact s2.cons₂ n

/-- The scan loop neither reports about nor flags a task that is not in
the scanned list. -/
theorem reapScan_notin (env : ProcEnv) : ∀ (ns : List Nat) (st : DaemonState)
    (k : Nat), k ∉ ns →
    (reapScan env st ns).2.1.countP (isTermReport k) = 0 ∧
    (reapScan env st ns).2.1.countP (isCompletedReport k) = 0 ∧
    k ∉ (reapScan env st ns).2.2.1 ∧ k ∉ (reapScan env st ns).2.2.2
  | [], st, k, _ => ⟨rfl, rfl, List.not_mem_nil k, List.not_mem_nil k⟩
  | n :: rest, st, k, hk => by
      have hkn : k ≠ n := fun hc => hk (hc ▸ List.mem_cons_self n rest)
      have hkr : k ∉ rest := fun hc => hk (List.mem_cons_of_mem n hc)
      obtain ⟨r1, r2⟩ := reapOne_reports_other env st n k hkn
      obtain ⟨fl1, fl2⟩ := reapOne_flags env st n
      obtain ⟨i1, i2, i3, i4⟩ := reapScan_notin env rest (reapOne env st n).1 k hkr
      simp only [reapScan]
      refine ⟨?_, ?_, ?_, ?_⟩
      · rw [List.countP_append, r1, i1]
      · rw [List.countP_append, r2, i2]
      · intro hc
        rcases List.mem_append.mp hc with hc | hc
        · rcases fl1 with h | h <;> rw [h] at hc
          · exact absurd hc (List.not_mem_nil k)
          · simp only [Option.toList_some, List.mem_singleton] at hc
            exact hkn hc
        · exact i3 hc
      · intro hc
        rcases List.mem_append.mp hc with hc | hc
        · rcases fl2 with h | h <;> rw [h] at hc
          · exact absurd hc (List.not_mem_nil k)
          · simp only [Option.toList_some, List.mem_singleton] at hc
            exact hkn hc
        · exact i4 hc

/-- The full scan-loop account for a running task `n` (keys distinct):
terminal report counts, membership in the `completed` / `timed_out`
lists, and — for a timed-out task — the preservation of its details
into the timeout loop. -/
theorem reapScan_self (env : ProcEnv) : ∀ (ns : List Nat) (st : DaemonState)
    (n : Nat), ns.Nodup → n ∈ ns →
    ((reapScan env st ns).2.1.countP (isTermReport n) =
      (if timeoutCond env st n = true then 0 else
        match env.poll n with
        | some rc => if rc = 0 then 0 else 1
        | none => 0)) ∧
    ((reapScan env st ns).2.1.countP (isCompletedReport n) = 0) ∧
    (n ∈ (reapScan env st ns).2.2.2 ↔ timeoutCond env st n = true) ∧
    (n ∈ (reapScan env st ns).2.2.1 ↔
      (timeoutCond env st n = false ∧ (env.poll n).isSome = true)) ∧
    (timeoutCond env st n = true →
      alookup n (reapScan env st ns).1.task_details = alookup n st.task_details)
  | [], _, n, _, hn => absurd hn (List.not_mem_nil n)
  | n' :: rest, st, n, hnd, hn => by
      have hndr : rest.Nodup := (List.nodup_cons.mp hnd).2
      rcases List.mem_cons.mp hn with rfl | hnrest
      · -- n is the head; by nodup it is not scanned again
        have hnr : n ∉ rest := (List.nodup_cons.mp hnd).1
        rcases hto : timeoutCond env st n with _ | _
        · obtain ⟨i1, i2, i3, i4⟩ := reapScan_notin env rest (reapOne env st n).1 n hnr
          rcases hp : env.poll n with _ | rc
          · obtain ⟨c1, c2, fl1, fl2, _⟩ := reapOne_spec_none env st n hto hp
            simp only [reapScan]
            refine ⟨?_, ?_, ?_, ?_, ?_⟩
            · rw [List.countP_append, c1 n, i1]
              rfl
            · rw [List.countP_append, c2 n, i2]
            · refine iff_of_false ?_ Bool.false_ne_true
              intro hc
              rcases List.mem_append.mp hc with hc | hc
              · rw [fl2] at hc
                exact absurd hc (List.not_mem_nil n)
              · exact i4 hc
            · refine iff_of_false ?_ ?_
              · intro hc
                rcases List.mem_append.mp hc with hc | hc
                · rw [fl1] at hc
                  exact absurd hc (List.not_mem_nil n)
                · exact i3 hc
              · rintro ⟨-, hs⟩
                simp at hs
            · intro hc
              simp at hc
          · obtain ⟨c1, _, c2, fl1, fl2, _⟩ := reapOne_spec_exit env st n rc hto hp
            simp only [reapScan]
            refine ⟨?_, ?_, ?_, ?_, ?_⟩
            · rw [List.countP_append, c1, i1, Nat.add_zero]
              rfl
            · rw [List.countP_append, c2 n, i2]
            · refine iff_of_false ?_ Bool.false_ne_true
              intro hc
              rcases List.mem_append.mp hc with hc | hc
              · rw [fl2] at hc
                exact absurd hc (List.not_mem_nil n)
              · exact i4 hc
            · refine iff_of_true ?_ (by simp)
              apply List.mem_append.mpr
              left
              rw [fl1]
              exact List.mem_singleton.mpr rfl
            · intro hc
              simp at hc
        · simp only [reapScan]
          rw [reapOne_timeout env st n hto]
          dsimp only
          simp only [List.nil_append]
          obtain ⟨i1, i2, i3, i4⟩ := reapScan_notin env rest st n hnr
          obtain ⟨s1, s2, s3⟩ := reapScan_frame env rest st
          refine ⟨?_, ?_, ?_, ?_, ?_⟩
          · rw [i1]
            simp
          · exact i2
          · exact iff_of_true (List.mem_cons_self n _) (by simp)
          · refine iff_of_false ?_ ?_
            · exact i3
            · rintro ⟨hc, -⟩
              simp at hc
          · intro _
            exact s3 n hnr
      · -- n is scanned later; the head differs from n
        have hne : n ≠ n' := fun hc => (List.nodup_cons.mp hnd).1 (hc ▸ hnrest)
        obtain ⟨o1, o2, o3⟩ := reapOne_frame env st n'
        have hdet : alookup n (reapOne env st n').1.task_details =
            alookup n st.task_details := o3 n hne
        have hto' : timeoutCond env (reapOne env st n').1 n = timeoutCond env st n :=
          timeoutCond_congr env st _ n hdet
        obtain ⟨i1, i2, i3, i4, i5⟩ :=
          reapScan_self env rest (reapOne env st n').1 n hndr hnrest
        obtain ⟨r1, r2⟩ := reapOne_reports_other env st n' n hne
        obtain ⟨fl1, fl2⟩ := reapOne_flags env st n'
        rw [hto'] at i1 i3 i4 i5
        have hhead1 : n ∉ (reapOne env st n').2.2.1.toList := by
          rcases fl1 with h | h <;> rw [h]
          · exact List.not_mem_nil n
          · simp only [Option.toList_some, List.mem_singleton]
            exact hne
        have hhead2 : n ∉ (reapOne env st n').2.2.2.toList := by
          rcases fl2 with h | h <;> rw [h]
          · exact List.not_mem_nil n
          · simp only [Option.toList_some, List.mem_singleton]
            exact hne
        simp only [reapScan]
        refine ⟨?_, ?_, ?_, ?_, ?_⟩
        · rw [List.countP_append, r1, i1, Nat.zero_add]
        · rw [List.countP_append, r2, i2]
        · rw [List.mem_append]
          rw [or_iff_right hhead2]
          exact i3
        · rw [List.mem_append]
          rw [or_iff_right hhead1]
          exact i4
        · intro hc
          rw [i5 hc, hdet]

/-- Full account of the handling of one timed-out task: details and
running table untouched, the timeout entry appended, the kill sequence
and exactly one `failed` report emitted. -/
theorem reapTimeout_spec (env : ProcEnv) (st : DaemonState) (n : Nat) :
    (reapTimeout env st n).1.task_details = st.task_details ∧
    (reapTimeout env st n).1.running_tasks = st.running_tasks ∧
    st.completed_today <+: (reapTimeout env st n).1.completed_today ∧
    (∃ e ∈ (reapTimeout env st n).1.completed_today,
      e.display_number = n ∧ e.status = CompletedStatus.timeout ∧
      e.duration_seconds = reapDuration env st n) ∧
    Action.terminateChild n ∈ (reapTimeout env st n).2 ∧
    Action.waitChild n 5 ∈ (reapTimeout env st n).2 ∧
    (env.waitGraceful n = false → Action.killChild n ∈ (reapTimeout env st n).2) ∧
    Action.statusReport n .failed (some (timeoutMsg (reapDuration env st n))) ∈
      (reapTimeout env st n).2 ∧
    ((reapTimeout env st n).2.countP (isTermReport n) = 1) ∧
    (∀ k, k ≠ n → (reapTimeout env st n).2.countP (isTermReport k) = 0) ∧
    (∀ k, (reapTimeout env st n).2.countP (isCompletedReport k) = 0) := by
  by_cases hw : env.waitGraceful n = true
  · simp only [reapTimeout]
    rw [if_pos hw]
    refine ⟨trivial, trivial, List.prefix_append _ _, ?_, ?_, ?_, ?_, ?_, ?_, ?_, ?_⟩
    · exact ⟨_, List.mem_append_right _ (List.mem_singleton.mpr rfl), rfl, rfl, rfl⟩
    · simp
    · simp
    · intro hc
      rw [hc] at hw
      exact absurd hw (by simp)
    · simp [NOTIFY_ON_FAILURE]
    · simp [NOTIFY_ON_FAILURE, List.countP_cons, List.countP_append, isTermReport]
    · intro k hk
      simp [NOTIFY_ON_FAILURE, List.countP_cons, List.countP_append, isTermReport,
        Ne.symm hk]
    · intro k
      simp [NOTIFY_ON_FAILURE, List.countP_cons, List.countP_append, isCompletedReport]
  · simp only [reapTimeout]
    rw [if_neg hw]
    refine ⟨trivial, trivial, List.prefix_append _ _, ?_, ?_, ?_, ?_, ?_, ?_, ?_, ?_⟩
    · exact ⟨_, List.mem_append_right _ (List.mem_singleton.mpr rfl), rfl, rfl, rfl⟩
    · simp
    · simp
    · intro _
      simp
    · simp [NOTIFY_ON_FAILURE]
    · simp [NOTIFY_ON_FAILURE, List.countP_cons, List.countP_append, isTermReport]
    · intro k hk
      simp [NOTIFY_ON_FAILURE, List.countP_cons, List.countP_append, isTermReport,
        Ne.symm hk]
    · intro k
      simp [NOTIFY_ON_FAILURE, List.countP_cons, List.countP_append, isCompletedReport]

/-- The timeout loop never touches `task_details` or the running table
and only appends to the completed list. -/
theorem reapTimeouts_frame (env : ProcEnv) : ∀ (ts : List Nat) (st : DaemonState),
    (reapTimeouts env st ts).1.task_details = st.task_details ∧
    (reapTimeouts env st ts).1.running_tasks = st.running_tasks ∧
    st.completed_today <+: (reapTimeouts env st ts).1.completed_today
  | [], st => ⟨rfl, rfl, List.prefix_refl _⟩
  | m :: rest, st => by
      obtain ⟨t1, t2, t3, _⟩ := reapTimeout_spec env st m
      obtain ⟨s1, s2, s3⟩ := reapTimeouts_frame env rest (reapTimeout env st m).1
      simp only [reapTimeouts]
      exact ⟨s1.trans t1, s2.trans t2, t3.trans s3⟩

/-- The timeout loop reports nothing about tasks outside its list. -/
theorem reapTimeouts_notin (env : ProcEnv) : ∀ (ts : List Nat) (st : DaemonState)
    (k : Nat), k ∉ ts →
    (reapTimeouts env st ts).2.countP (isTermReport k) = 0 ∧
    (reapTimeouts env st ts).2.countP (isCompletedReport k) = 0
  | [], _, _, _ => ⟨rfl, rfl⟩
  | m :: rest, st, k, hk => by
      have hkm : k ≠ m := fun hc => hk (hc ▸ List.mem_cons_self m rest)
      have hkr : k ∉ rest := fun hc => hk (List.mem_cons_of_mem m hc)
      obtain ⟨_, _, _, _, _, _, _, _, _, tO, tC⟩ := reapTimeout_spec env st m
      obtain ⟨i1, i2⟩ := reapTimeouts_notin env rest (reapTimeout env st m).1 k hkr
      simp only [reapTimeouts]
      constructor
      · rw [List.countP_append, tO k hkm, i1]
      · rw [List.countP_append, tC k, i2]

/-- Full account of the timeout loop for one of its tasks: the kill
sequence, exactly one `failed` report carrying the timeout message, and
the `timeout` entry in the completed list. -/
theorem reapTimeouts_self (env : ProcEnv) : ∀ (ts : List Nat) (st : DaemonState)
    (n : Nat), ts.Nodup → n ∈ ts →
    ((reapTimeouts env st ts).2.countP (isTermReport n) = 1) ∧
    ((reapTimeouts env st ts).2.countP (isCompletedReport n) = 0) ∧
    Action.terminateChild n ∈ (reapTimeouts env st ts).2 ∧
    Action.waitChild n 5 ∈ (reapTimeouts env st ts).2 ∧
    (env.waitGraceful n = false → Action.killChild n ∈ (reapTimeouts env st ts).2) ∧
    Action.statusReport n .failed (some (timeoutMsg (reapDuration env st n))) ∈
      (reapTimeouts env st ts).2 ∧
    (∃ e ∈ (reapTimeouts env st ts).1.completed_today,
      e.display_number = n ∧ e.status = CompletedStatus.timeout ∧
      e.duration_seconds = reapDuration env st n)
  | [], _, n, _, hn => absurd hn (List.not_mem_nil n)
  | m :: rest, st, n, hnd, hn => by
      have hndr : rest.Nodup := (List.nodup_cons.mp hnd).2
      rcases List.mem_cons.mp hn with rfl | hnrest
      · have hnr : n ∉ rest := (List.nodup_cons.mp hnd).1
        obtain ⟨t1, t2, t3, tE, t4, t5, t6, t7, t8, _, tC⟩ := reapTimeout_spec env st n
        obtain ⟨i1, i2⟩ := reapTimeouts_notin env rest (reapTimeout env st n).1 n hnr
        obtain ⟨f1, f2, f3⟩ := reapTimeouts_frame env rest (reapTimeout env st n).1
        simp only [reapTimeouts]
        refine ⟨?_, ?_, ?_, ?_, ?_, ?_, ?_⟩
        · rw [List.countP_append, t8, i1]
        · rw [List.countP_append, tC n, i2]
        · exact List.mem_append.mpr (Or.inl t4)
        · exact List.mem_append.mpr (Or.inl t5)
        · intro hg
          exact List.mem_append.mpr (Or.inl (t6 hg))
        · exact List.mem_append.mpr (Or.inl t7)
        · obtain ⟨e, he, p1, p2, p3⟩ := tE
          exact ⟨e, f3.subset he, p1, p2, p3⟩
      · have hne : n ≠ m := fun hc => (List.nodup_cons.mp hnd).1 (hc ▸ hnrest)
        obtain ⟨t1, _, _, _, _, _, _, _, _, tO, tC⟩ := reapTimeout_spec env st m
        have hdur : reapDuration env (reapTimeout env st m).1 n = reapDuration env st n := by
          apply reapDuration_congr
          rw [t1]
        obtain ⟨i1, i2, i3, i4, i5, i6, i7⟩ :=
          reapTimeouts_self env rest (reapTimeout env st m).1 n hndr hnrest
        rw [hdur] at i6 i7
        simp only [reapTimeouts]
        refine ⟨?_, ?_, ?_, ?_, ?_, ?_, ?_⟩
        · rw [List.countP_append, tO n hne, i1]
        · rw [List.countP_append, tC n, i2]
        · exact List.mem_append.mpr (Or.inr i3)
        · exact List.mem_append.mpr (Or.inr i4)
        · intro hg
          exact List.mem_append.mpr (Or.inr (i5 hg))
        · exact List.mem_append.mpr (Or.inr i6)
        · exact i7

/-- The removal loop only deletes bookkeeping: the completed list is
untouched, no reports are emitted, and the running table shrinks. -/
theorem reapRemovals_facts : ∀ (ns : List Nat) (st : DaemonState),
    (reapRemovals st ns).1.completed_today = st.completed_today ∧
    (∀ k, (reapRemovals st ns).2.countP (isTermReport k) = 0) ∧
    (∀ k, (reapRemovals st ns).2.countP (isCompletedReport k) = 0) ∧
    List.Sublist (reapRemovals st ns).1.running_tasks st.running_tasks
  | [], st => ⟨rfl, fun _ => rfl, fun _ => rfl, List.Sublist.refl _⟩
  | m :: rest, st => by
      obtain ⟨i1, i2, i3, i4⟩ := reapRemovals_facts rest (reapRemove st m).1
      simp only [reapRemovals]
      refine ⟨i1, ?_, ?_, ?_⟩
      · intro k
        rw [List.countP_append, i2 k]
        rfl
      · intro k
        rw [List.countP_append, i3 k]
        rfl
      · exact i4.trans (List.erase_sublist m st.running_tasks)

/-- A removed task is no longer in the running table (keys distinct). -/
theorem reapRemovals_not_mem : ∀ (ns : List Nat) (st : DaemonState) (n : Nat),
    n ∈ ns → st.running_tasks.Nodup → n ∉ (reapRemovals st ns).1.running_tasks
  | [], _, n, hn, _ => absurd hn (List.not_mem_nil n)
  | m :: rest, st, n, hn, hnd => by
      rcases List.mem_cons.mp hn with rfl | hnrest
      · have h1 : n ∉ (reapRemove st n).1.running_tasks := by
          show n ∉ st.running_tasks.erase n
          intro hc
          exact ((hnd.mem_erase_iff).mp hc).1 rfl
        obtain ⟨_, _, _, i4⟩ := reapRemovals_facts rest (reapRemove st n).1
        simp only [reapRemovals]
        intro hc
        exact h1 (i4.subset hc)
      · have hnd' : (reapRemove st m).1.running_tasks.Nodup := by
          show (st.running_tasks.erase m).Nodup
          exact hnd.erase m
        simp only [reapRemovals]
        exact reapRemovals_not_mem rest (reapRemove st m).1 n hnrest hnd'

/-- C1 counterexample: a child that exits with code 0 is removed from
the running table by the reap pass, but zero terminal status reports
are sent — not exactly one. -/
theorem clean_exit_sends_no_terminal_report :
    1 ∈ exSt1.running_tasks ∧
    1 ∉ (check_running_tasks exEnvExit0 exSt1).1.running_tasks ∧
    (check_running_tasks exEnvExit0 exSt1).2.countP (isTermReport 1) = 0 := by
  refine ⟨?_, ?_, ?_⟩ <;> decide

/-- C1 (amended): for every task removed from the running table by the
reap pass, a failing exit or a timeout sends exactly one terminal
status report — and the reap pass never sends a `completed` report, so
that report has status `failed` — while a child that exits with code 0
is removed with no terminal report at all (success reporting is left to
the assistant's session-end hook). -/
theorem reaped_task_terminal_reports (env : ProcEnv) (st : DaemonState)
    (hnd : st.running_tasks.Nodup) (n : Nat) (hn : n ∈ st.running_tasks) :
    ((timeoutCond env st n = true ∨ (∃ rc, env.poll n = some rc ∧ rc ≠ 0)) →
      (check_running_tasks env st).2.countP (isTermReport n) = 1 ∧
      n ∉ (check_running_tasks env st).1.running_tasks) ∧
    ((timeoutCond env st n = false ∧ env.poll n = some 0) →
      (check_running_tasks env st).2.countP (isTermReport n) = 0 ∧
      n ∉ (check_running_tasks env st).1.running_tasks) ∧
    (check_running_tasks env st).2.countP (isCompletedReport n) = 0 := by
  obtain ⟨sc1, sc2, sc3, sc4, sc5⟩ := reapScan_self env st.running_tasks st n hnd hn
  obtain ⟨sf1, sf2, sf3⟩ := reapScan_frame env st.running_tasks st
  obtain ⟨sub1, sub2⟩ := reapScan_sublist env st.running_tasks st
  have hndT : (reapScan env st st.running_tasks).2.2.2.Nodup := hnd.sublist sub2
  obtain ⟨tf1, tf2, tf3⟩ := reapTimeouts_frame env
    (reapScan env st st.running_tasks).2.2.2 (reapScan env st st.running_tasks).1
  have hrun : (reapTimeouts env (reapScan env st st.running_tasks).1
      (reapScan env st st.running_tasks).2.2.2).1.running_tasks = st.running_tasks :=
    tf2.trans sf1
  have hrunnd : (reapTimeouts env (reapScan env st st.running_tasks).1
      (reapScan env st st.running_tasks).2.2.2).1.running_tasks.Nodup := by
    rw [hrun]; exact hnd
  obtain ⟨rem1, rem2, rem3, rem4⟩ := reapRemovals_facts
    ((reapScan env st st.running_tasks).2.2.1 ++ (reapScan env st st.running_tasks).2.2.2)
    (reapTimeouts env (reapScan env st st.running_tasks).1
      (reapScan env st st.running_tasks).2.2.2).1
  have hD : ∀ (c : Bool) (p : Action → Bool), p Action.writeStatus = false →
      List.countP p (if c = true then ([] : List Action) else [Action.writeStatus]) = 0 := by
    intro c p hp
    rcases c with _ | _
    · simp [List.countP_cons, hp]
    · rfl
  simp only [check_running_tasks]
  refine ⟨?_, ?_, ?_⟩
  · intro hcase
    by_cases hto : timeoutCond env st n = true
    · have hmemT : n ∈ (reapScan env st st.running_tasks).2.2.2 := sc3.mpr hto
      obtain ⟨u1, u2, _⟩ := reapTimeouts_self env
        (reapScan env st st.running_tasks).2.2.2 (reapScan env st st.running_tasks).1
        n hndT hmemT
      constructor
      · rw [List.countP_append, List.countP_append, List.countP_append]
        rw [sc1, hto, u1, rem2 n, hD _ _ rfl]
        simp
      · apply reapRemovals_not_mem _ _ n _ hrunnd
        exact List.mem_append.mpr (Or.inr hmemT)
    · have hto' : timeoutCond env st n = false := by
        revert hto
        rcases timeoutCond env st n with _ | _ <;> simp
      rcases hcase with hto2 | ⟨rc, hp, hrc⟩
      · exact absurd hto2 hto
      · have hmemC : n ∈ (reapScan env st st.running_tasks).2.2.1 :=
          sc4.mpr ⟨hto', by rw [hp]; rfl⟩
        have hnotT : n ∉ (reapScan env st st.running_tasks).2.2.2 := by
          intro hc
          exact hto (sc3.mp hc)
        obtain ⟨v1, _⟩ := reapTimeouts_notin env
          (reapScan env st st.running_tasks).2.2.2
          (reapScan env st st.running_tasks).1 n hnotT
        constructor
        · rw [List.countP_append, List.countP_append, List.countP_append]
          rw [sc1, hto', hp, v1, rem2 n, hD _ _ rfl]
          simp [hrc]
        · apply reapRemovals_not_mem _ _ n _ hrunnd
          exact List.mem_append.mpr (Or.inl hmemC)
  · rintro ⟨hto', hp⟩
    have hmemC : n ∈ (reapScan env st st.running_tasks).2.2.1 :=
      sc4.mpr ⟨hto', by rw [hp]; rfl⟩
    have hnotT : n ∉ (reapScan env st st.running_tasks).2.2.2 := by
      intro hc
      rw [sc3.mp hc] at hto'
      exact absurd hto' (by simp)
    obtain ⟨v1, _⟩ := reapTimeouts_notin env
      (reapScan env st st.running_tasks).2.2.2
      (reapScan env st st.running_tasks).1 n hnotT
    constructor
    · rw [List.countP_append, List.countP_append, List.countP_append]
      rw [sc1, hto', hp, v1, rem2 n, hD _ _ rfl]
      simp
    · apply reapRemovals_not_mem _ _ n _ hrunnd
      exact List.mem_append.mpr (Or.inl hmemC)
  · rw [List.countP_append, List.countP_append, List.countP_append]
    rw [sc2, rem3 n, hD _ _ rfl]
    by_cases hmemT : n ∈ (reapScan env st st.running_tasks).2.2.2
    · obtain ⟨_, u2, _⟩ := reapTimeouts_self env
        (reapScan env st st.running_tasks).2.2.2 (reapScan env st st.running_tasks).1
        n hndT hmemT
      rw [u2]
    · obtain ⟨_, v2⟩ := reapTimeouts_notin env
        (reapScan env st st.running_tasks).2.2.2
        (reapScan env st st.running_tasks).1 n hmemT
      rw [v2]

/-- Witness: in `exEnvTimeout`, task 1 (started at 0, observed at 3700)
is reaped with exactly one terminal report. -/
theorem reaped_task_terminal_reports_witness :
    (check_running_tasks exEnvTimeout exSt1).2.countP (isTermReport 1) = 1 ∧
    1 ∉ (check_running_tasks exEnvTimeout exSt1).1.running_tasks :=
  (reaped_task_terminal_reports exEnvTimeout exSt1 (by decide) 1 (by decide)).1
    (Or.inl (by decide))

/-- C5: a running task whose elapsed time exceeds `TASK_TIMEOUT_SECONDS`
is terminated (graceful terminate, 5-second wait, forced kill when the
wait expires), reported `failed` with an error containing "timed out"
and the elapsed seconds, and recorded in `completed_today` with status
`timeout` and a duration of at least 3600 seconds. -/
theorem timed_out_task_killed_and_reported (env : ProcEnv) (st : DaemonState)
    (hnd : st.running_tasks.Nodup) (n : Nat) (hn : n ∈ st.running_tasks) (t : ℚ)
    (hst : ((alookup n st.task_details).getD emptyTaskInfo).started_at = some t)
    (hto : qsub env.now t > (TASK_TIMEOUT_SECONDS : ℚ)) :
    Action.terminateChild n ∈ (check_running_tasks env st).2 ∧
    Action.waitChild n 5 ∈ (check_running_tasks env st).2 ∧
    (env.waitGraceful n = false → Action.killChild n ∈ (check_running_tasks env st).2) ∧
    Action.statusReport n .failed (some (timeoutMsg (reapDuration env st n))) ∈
      (check_running_tasks env st).2 ∧
    containsSub ("timed out".toList) (timeoutMsg (reapDuration env st n)) = true ∧
    containsSub (intStr (reapDuration env st n)) (timeoutMsg (reapDuration env st n)) = true ∧
    (TASK_TIMEOUT_SECONDS : Int) ≤ reapDuration env st n ∧
    (∃ e ∈ (check_running_tasks env st).1.completed_today,
      e.display_number = n ∧ e.status = CompletedStatus.timeout ∧
      e.duration_seconds = reapDuration env st n) := by
  have htoc : timeoutCond env st n = true := by
    simp only [timeoutCond, hst]
    exact decide_eq_true hto
  obtain ⟨sc1, sc2, sc3, sc4, sc5⟩ := reapScan_self env st.running_tasks st n hnd hn
  obtain ⟨sub1, sub2⟩ := reapScan_sublist env st.running_tasks st
  have hndT : (reapScan env st st.running_tasks).2.2.2.Nodup := hnd.sublist sub2
  have hmemT : n ∈ (reapScan env st st.running_tasks).2.2.2 := sc3.mpr htoc
  have hdet := sc5 htoc
  have hdur : reapDuration env (reapScan env st st.running_tasks).1 n =
      reapDuration env st n := reapDuration_congr env st _ n hdet
  obtain ⟨u1, u2, u3, u4, u5, u6, u7⟩ := reapTimeouts_self env
    (reapScan env st st.running_tasks).2.2.2 (reapScan env st st.running_tasks).1
    n hndT hmemT
  rw [hdur] at u6 u7
  obtain ⟨rem1, _, _, _⟩ := reapRemovals_facts
    ((reapScan env st st.running_tasks).2.2.1 ++ (reapScan env st st.running_tasks).2.2.2)
    (reapTimeouts env (reapScan env st st.running_tasks).1
      (reapScan env st st.running_tasks).2.2.2).1
  have hmem : ∀ a, a ∈ (reapTimeouts env (reapScan env st st.running_tasks).1
      (reapScan env st st.running_tasks).2.2.2).2 →
      a ∈ (check_running_tasks env st).2 := by
    intro a ha
    simp only [check_running_tasks]
    exact List.mem_append.mpr (Or.inl (List.mem_append.mpr (Or.inl
      (List.mem_append.mpr (Or.inr ha)))))
  obtain ⟨hc1, hc2⟩ := timeoutMsg_contains (reapDuration env st n)
  refine ⟨hmem _ u3, hmem _ u4, fun hg => hmem _ (u5 hg), hmem _ u6, hc1, hc2, ?_, ?_⟩
  · have hfloor : reapDuration env st n = (qsub env.now t).floor := by
      rw [reapDuration, hst]
    rw [hfloor]
    apply Rat.le_floor.mpr
    have hcast : (((TASK_TIMEOUT_SECONDS : Int)) : ℚ) = (TASK_TIMEOUT_SECONDS : ℚ) := by
      push_cast
      rfl
    rw [hcast]
    exact le_of_lt hto
  · obtain ⟨e, he, p1, p2, p3⟩ := u7
    refine ⟨e, ?_, p1, p2, p3⟩
    simp only [check_running_tasks]
    rw [rem1]
    exact he

/-- Witness: in `exEnvTimeout`, task 1 is terminated, and its recorded
duration (3700s) is at least the 3600-second limit. -/
theorem timed_out_task_killed_and_reported_witness :
    Action.terminateChild 1 ∈ (check_running_tasks exEnvTimeout exSt1).2 ∧
    (TASK_TIMEOUT_SECONDS : Int) ≤ reapDuration exEnvTimeout exSt1 1 :=
  ⟨(timed_out_task_killed_and_reported exEnvTimeout exSt1 (by decide) 1 (by decide) 0
      rfl (by decide)).1,
   (timed_out_task_killed_and_reported exEnvTimeout exSt1 (by decide) 1 (by decide) 0
      rfl (by decide)).2.2.2.2.2.2.1⟩

end PushTodo
